import Mathlib

/-!
# NotificationService: the asynchronous SMS dispatch pipeline

A shallow embedding of `padam-meesho/NotificationService` (Go).  The service
functions of `internal/repo/repo.go`, the data-access functions of
`dao/scylla.go` and `dao/redis.go`, the HTTP handler of
`internal/handlers/handlers.go`, the consumer loop of `kafka/kafka.go`, the
two middlewares of `internal/middlewares` and the logger constructors of
`internal/utils/logger.go` are written as pure functions over an explicit
`World`.

The three external systems are modelled by their documented behaviour:

* the ScyllaDB table `sms_requests` is a list of rows keyed by `id`; a CQL
  `INSERT` and a CQL `UPDATE` are both upserts, a `SELECT` of an absent key
  makes gocqlx return `gocql.ErrNotFound`;
* the Redis set `blacklisted_numbers_set` is a duplicate-free list of strings
  with `SADD`, `SISMEMBER`, `SMEMBERS`, `SREM`;
* the Kafka topic `notification.send_sms` is the list of message values
  produced so far.

Everything the code cannot decide on its own (whether a driver call fails, the
UUID drawn, the readings of the wall clock) is supplied by an `Env`; whether
the consumer goroutine read the service instance before or after its
initialisation is an argument of the consumer loop.  Every
call that leaves the process is appended to `World.calls`, so that "was never
invoked" is a statement about that list.  Log lines are not modelled; of a
logger only the fields it tags its lines with are.
-/

namespace NotificationService

/-! ## Data model (`internal/models`) -/

/-- A Go `error` value, identified with its message. -/
abbrev GoError := String

/-- A reading of `time.Now()`; `0` stands for the zero `time.Time`. -/
abbrev Time := Nat

/-- Row of `sms_requests`, `models.SMSRequest`. -/
structure SMSRequest where
  ID : String
  PhoneNumber : String
  Message : String
  Status : String
  FailureCode : String
  FailureComments : String
  CreatedAt : Time
  UpdatedAt : Time
deriving DecidableEq, Repr

/-- Request body of `POST /v1/sms/send`, `models.SendSms`. -/
structure SendSms where
  PhoneNumber : String
  Message : String
deriving DecidableEq, Repr

/-- Request body of `POST /v1/blacklist`, `models.AddToBlacklist`. -/
structure AddToBlacklist where
  PhoneNumbers : String
deriving DecidableEq, Repr

/-- Argument of `InsertSMSRequest`, `models.AddSmsEntryInDb`. -/
structure AddSmsEntryInDb where
  RequestID : String
  PhoneNumber : String
  Message : String
deriving DecidableEq, Repr

/-- Body of an `SMS_REQUEST` envelope, `models.SendSmsPayload`. -/
structure SendSmsPayload where
  MessageId : String
deriving DecidableEq, Repr

/-- The envelope `models.KafkaPayload`; `Typ` is the Go field `Type`, `Data`
the `json.RawMessage`. -/
structure KafkaPayload where
  Typ : String
  Data : List Char
deriving DecidableEq, Repr

/-! ## The world outside the process -/

/-- One call that leaves the process. -/
inductive Call where
  | scyllaInsert (id : String)
  | scyllaSelect (id : String)
  | scyllaUpdate (id : String)
  | redisSAdd (number : String)
  | redisSIsMember (number : String)
  | redisSMembers
  | redisSRem (number : String)
  | kafkaProduce (value : List Char)
  | sendMessage (req : SMSRequest)
deriving DecidableEq, Repr

/-- Outcome of each driver call: `none` lets the call through, `some e` makes
the driver return the error `e` without touching the external system. -/
structure Faults where
  insert : Option GoError
  select : Option GoError
  update : Option GoError
  sadd : Option GoError
  sismember : Option GoError
  smembers : Option GoError
  srem : Option GoError
  produce : Option GoError
deriving DecidableEq, Repr

/-- What the code cannot decide: driver faults, the UUID that
`uuid.New().String()` yields, the successive readings of `time.Now()`, and
whether `kafka.GetKafkaDao()` is non-nil. -/
structure Env where
  faults : Faults
  uuid : String
  now : Nat → Time
  kafkaDao : Bool

/-- State of the external systems together with the history of calls. -/
structure World where
  sms_requests : List SMSRequest
  blacklisted_numbers_set : List String
  topic : List (List Char)
  clockReads : Nat
  calls : List Call
deriving DecidableEq, Repr

/-- No driver call fails. -/
def Faults.none : Faults :=
  { insert := Option.none, select := Option.none, update := Option.none,
    sadd := Option.none, sismember := Option.none, smembers := Option.none,
    srem := Option.none, produce := Option.none }

/-- The calls appended to the history between `w` and a later world `w2`. -/
def callsDuring (w w2 : World) : List Call :=
  w2.calls.drop w.calls.length

/-- Does the call hand a message to the SMS gateway (`SendMessage`)? -/
def Call.isSend : Call → Bool
  | .sendMessage _ => true
  | _ => false

/-- Does the call write to `sms_requests`? -/
def Call.isStoreWrite : Call → Bool
  | .scyllaInsert _ => true
  | .scyllaUpdate _ => true
  | _ => false

/-- Does the call read the blacklist set? -/
def Call.isBlacklistRead : Call → Bool
  | .redisSIsMember _ => true
  | .redisSMembers => true
  | _ => false

/-- Does the call publish to the topic? -/
def Call.isProduce : Call → Bool
  | .kafkaProduce _ => true
  | _ => false

/-! ## CQL on `sms_requests` -/

/-- CQL `SELECT ... WHERE id = ?`: the row with that key, if any. -/
def cqlSelect (id : String) : List SMSRequest → Option SMSRequest
  | [] => none
  | r :: rs => if r.ID = id then some r else cqlSelect id rs

/-- CQL `INSERT` binding all eight columns: the row with that key is replaced,
or the row is added. -/
def cqlInsert (row : SMSRequest) : List SMSRequest → List SMSRequest
  | [] => [row]
  | r :: rs => if r.ID = row.ID then row :: rs else r :: cqlInsert row rs

/-- CQL `UPDATE sms_requests SET status, failure_code, failure_comments,
updated_at WHERE id = ?`: the four columns of the row with that key are
overwritten; an absent key gets a new row whose other columns are null (read
back by gocqlx as empty strings and the zero time). -/
def cqlUpdate (id status failureCode failureComments : String) (updatedAt : Time) :
    List SMSRequest → List SMSRequest
  | [] => [{ ID := id, PhoneNumber := "", Message := "", Status := status,
             FailureCode := failureCode, FailureComments := failureComments,
             CreatedAt := 0, UpdatedAt := updatedAt }]
  | r :: rs =>
    if r.ID = id then
      { r with Status := status, FailureCode := failureCode,
               FailureComments := failureComments, UpdatedAt := updatedAt } :: rs
    else r :: cqlUpdate id status failureCode failureComments updatedAt rs

/-! ## `dao/scylla.go` -/

/-- The error gocqlx returns from `GetRelease` when no row matches. -/
def ErrNotFound : GoError := "not found"

/-- `ScyllaDbDaoImpl.InsertSMSRequest`: binds the insert map (status
`"Pending"`, empty failure columns, two readings of `time.Now()`) and executes
the query. -/
def InsertSMSRequest (env : Env) (sms : AddSmsEntryInDb) (w : World) :
    Option GoError × World :=
  let row : SMSRequest :=
    { ID := sms.RequestID, PhoneNumber := sms.PhoneNumber, Message := sms.Message,
      Status := "Pending", FailureCode := "", FailureComments := "",
      CreatedAt := env.now w.clockReads, UpdatedAt := env.now (w.clockReads + 1) }
  let w1 : World :=
    { w with clockReads := w.clockReads + 2,
             calls := w.calls ++ [Call.scyllaInsert sms.RequestID] }
  match env.faults.insert with
  | some err => (some err, w1)
  | none => (none, { w1 with sms_requests := cqlInsert row w1.sms_requests })

/-- `ScyllaDbDaoImpl.GetSMSDetailsFromDB`: selects the row by id; any driver
error, `ErrNotFound` included, is returned as is. -/
def GetSMSDetailsFromDB (env : Env) (requestId : String) (w : World) :
    Except GoError SMSRequest × World :=
  let w1 : World := { w with calls := w.calls ++ [Call.scyllaSelect requestId] }
  match env.faults.select with
  | some err => (.error err, w1)
  | none =>
    match cqlSelect requestId w1.sms_requests with
    | none => (.error ErrNotFound, w1)
    | some data => (.ok data, w1)

/-- `ScyllaDbDaoImpl.UpdateSMSDetailsInDB`: fills in the defaults (`"Success"`
for an empty status, `"null"` for an empty failure code or comment), reads the
clock once and executes the update. -/
def UpdateSMSDetailsInDB (env : Env) (smsDetails : SMSRequest) (w : World) :
    Option GoError × World :=
  let status := if smsDetails.Status = "" then "Success" else smsDetails.Status
  let failureCode := if smsDetails.FailureCode = "" then "null" else smsDetails.FailureCode
  let failureComments :=
    if smsDetails.FailureComments = "" then "null" else smsDetails.FailureComments
  let updatedAt := env.now w.clockReads
  let w1 : World :=
    { w with clockReads := w.clockReads + 1,
             calls := w.calls ++ [Call.scyllaUpdate smsDetails.ID] }
  match env.faults.update with
  | some err => (some err, w1)
  | none =>
    let rows :=
      cqlUpdate smsDetails.ID status failureCode failureComments updatedAt w1.sms_requests
    (none, { w1 with sms_requests := rows })

/-! ## `dao/redis.go` -/

/-- `RedisDaoImpl.AddNumberToBlacklistedSet`: `SADD`; a driver error is
replaced by a fixed message. -/
def AddNumberToBlacklistedSet (env : Env) (numberToAdd : String) (w : World) :
    Option GoError × World :=
  let w1 : World := { w with calls := w.calls ++ [Call.redisSAdd numberToAdd] }
  match env.faults.sadd with
  | some _ => (some "failed to add number to blacklist", w1)
  | none =>
    let members :=
      if numberToAdd ∈ w1.blacklisted_numbers_set then w1.blacklisted_numbers_set
      else w1.blacklisted_numbers_set ++ [numberToAdd]
    (none, { w1 with blacklisted_numbers_set := members })

/-- `RedisDaoImpl.CheckNumberInBlacklistedSet`: `SISMEMBER`. -/
def CheckNumberInBlacklistedSet (env : Env) (numberToCheck : String) (w : World) :
    Except GoError Bool × World :=
  let w1 : World := { w with calls := w.calls ++ [Call.redisSIsMember numberToCheck] }
  match env.faults.sismember with
  | some _ => (.error "failed to check blacklist status", w1)
  | none => (.ok (decide (numberToCheck ∈ w1.blacklisted_numbers_set)), w1)

/-- `RedisDaoImpl.GetAllBlacklistedNumbers`: `SMEMBERS`. -/
def GetAllBlacklistedNumbers (env : Env) (w : World) :
    Except GoError (List String) × World :=
  let w1 : World := { w with calls := w.calls ++ [Call.redisSMembers] }
  match env.faults.smembers with
  | some _ => (.error "failed to retrieve blacklisted numbers", w1)
  | none => (.ok w1.blacklisted_numbers_set, w1)

/-- `RedisDaoImpl.RemoveFromBlacklistedSet`: `SREM`, which answers with the
number of members removed. -/
def RemoveFromBlacklistedSet (env : Env) (number : String) (w : World) :
    (Int × Option GoError) × World :=
  let w1 : World := { w with calls := w.calls ++ [Call.redisSRem number] }
  match env.faults.srem with
  | some _ => ((0, some "failed to remove number from blacklist"), w1)
  | none =>
    let removedCount : Int := (w1.blacklisted_numbers_set.filter (fun m => m = number)).length
    let members := w1.blacklisted_numbers_set.filter (fun m => ¬ m = number)
    ((removedCount, none), { w1 with blacklisted_numbers_set := members })

/-! ## `internal/repo/repo.go` -/

/-- `SendSMSService`: draws a UUID, inserts the request, returns the id; on an
insert error returns the empty id and that error. -/
def SendSMSService (env : Env) (req : SendSms) (w : World) :
    (String × Option GoError) × World :=
  let requestID := env.uuid
  let incomingReq : AddSmsEntryInDb :=
    { RequestID := requestID, PhoneNumber := req.PhoneNumber, Message := req.Message }
  match InsertSMSRequest env incomingReq w with
  | (some err, w1) => (("", some err), w1)
  | (none, w1) => ((requestID, none), w1)

/-- `SendMessage`: hands the request to the SMS gateway (a line on standard
output in this code base). -/
def SendMessage (req : SMSRequest) (w : World) : World :=
  { w with calls := w.calls ++ [Call.sendMessage req] }

/-- `HandleKafkaMessages` on an initialised receiver, whose two DAOs are the
stores of the world: read the record, check the blacklist, send, write the
record back.  Only an error of the final update is returned.  (The call on a
nil receiver is in `ConsumeIteration`.) -/
def HandleKafkaMessages (env : Env) (requestId : String) (w : World) :
    Option GoError × World :=
  match GetSMSDetailsFromDB env requestId w with
  | (.error _, w1) => (none, w1)
  | (.ok smsDetails, w1) =>
    match CheckNumberInBlacklistedSet env smsDetails.PhoneNumber w1 with
    | (.error _, w2) => (none, w2)
    | (.ok isPresent, w2) =>
      if isPresent then (none, w2)
      else
        let w3 := SendMessage smsDetails w2
        match UpdateSMSDetailsInDB env smsDetails w3 with
        | (some err, w4) => (some err, w4)
        | (none, w4) => (none, w4)

/-- `GetSMSService`: the record, or one fixed error message for every failure
of the read. -/
def GetSMSService (env : Env) (reqID : String) (w : World) :
    Except GoError SMSRequest × World :=
  match GetSMSDetailsFromDB env reqID w with
  | (.error _, w1) =>
    (.error ("failed to retrieve SMS details for request ID " ++ reqID), w1)
  | (.ok smsDetails, w1) => (.ok smsDetails, w1)

/-- `GetBlacklistService`. -/
def GetBlacklistService (env : Env) (w : World) : Except GoError (List String) × World :=
  match GetAllBlacklistedNumbers env w with
  | (.error _, w1) => (.error "failed to retrieve blacklisted numbers", w1)
  | (.ok blacklistedNumbers, w1) => (.ok blacklistedNumbers, w1)

/-- `AddToBlacklistService`: adds the one number held by the request's
`PhoneNumbers` field. -/
def AddToBlacklistService (env : Env) (req : AddToBlacklist) (w : World) :
    Option GoError × World :=
  match AddNumberToBlacklistedSet env req.PhoneNumbers w with
  | (some _, w1) =>
    (some ("failed to add number " ++ req.PhoneNumbers ++ " to blacklist"), w1)
  | (none, w1) => (none, w1)

/-- `RemoveFromBlacklistService`: `removedCount > 0`. -/
def RemoveFromBlacklistService (env : Env) (number : String) (w : World) :
    (Bool × Option GoError) × World :=
  match RemoveFromBlacklistedSet env number w with
  | ((_, some _), w1) =>
    ((false, some ("failed to remove number " ++ number ++ " from blacklist")), w1)
  | ((removedCount, none), w1) => ((decide (removedCount > 0), none), w1)

/-! ## `encoding/json`

The part of Go's `encoding/json` that `json.Marshal` and `json.Unmarshal` run
for the two wire structs.  Message values are sequences of characters (a valid
UTF-8 byte string and its sequence of code points determine each other, and a
Lean `String` is always valid). -/

/-- The double quote, U+0022. -/
def chQuote : Char := Char.ofNat 34

/-- The backslash, U+005C. -/
def chBackslash : Char := Char.ofNat 92

/-- The opening brace, U+007B. -/
def chLBrace : Char := Char.ofNat 123

/-- The closing brace, U+007D. -/
def chRBrace : Char := Char.ofNat 125

/-- The opening bracket, U+005B. -/
def chLBracket : Char := Char.ofNat 91

/-- The closing bracket, U+005D. -/
def chRBracket : Char := Char.ofNat 93

/-- The colon, U+003A. -/
def chColon : Char := Char.ofNat 58

/-- The comma, U+002C. -/
def chComma : Char := Char.ofNat 44

/-- The four bytes the scanner treats as insignificant space. -/
def isSpace (c : Char) : Bool :=
  c.toNat = 32 ∨ c.toNat = 9 ∨ c.toNat = 13 ∨ c.toNat = 10

/-- The bytes `<`, `>`, `&` that `json.Marshal` escapes for HTML safety. -/
def isHTML (c : Char) : Bool :=
  c.toNat = 60 ∨ c.toNat = 62 ∨ c.toNat = 38

/-- U+2028 and U+2029, which `json.Marshal` always escapes. -/
def isLineSep (c : Char) : Bool :=
  c.toNat = 8232 ∨ c.toNat = 8233

/-- The decimal digits. -/
def isDigit (c : Char) : Bool :=
  48 ≤ c.toNat ∧ c.toNat ≤ 57

/-- The lower-case hexadecimal digit of `n < 16`. -/
def hexDigit (n : Nat) : Char :=
  if n < 10 then Char.ofNat (48 + n) else Char.ofNat (87 + n)

/-- Value of a hexadecimal digit of either case. -/
def hexVal (c : Char) : Option Nat :=
  if 48 ≤ c.toNat ∧ c.toNat ≤ 57 then some (c.toNat - 48)
  else if 97 ≤ c.toNat ∧ c.toNat ≤ 102 then some (c.toNat - 87)
  else if 65 ≤ c.toNat ∧ c.toNat ≤ 70 then some (c.toNat - 55)
  else none

/-- How `appendString` (with HTML escaping on, as `json.Marshal` sets it)
writes one code point.  The short forms for U+0008 and U+000C are those of Go
1.22 and later; earlier versions write `\u0008` and `\u000c`, which
`unquoteStep` reads back to the same code points. -/
def encodeChar (c : Char) : List Char :=
  if c = chQuote ∨ c = chBackslash then [chBackslash, c]
  else if c.toNat = 8 then [chBackslash, 'b']
  else if c.toNat = 12 then [chBackslash, 'f']
  else if c.toNat = 10 then [chBackslash, 'n']
  else if c.toNat = 13 then [chBackslash, 'r']
  else if c.toNat = 9 then [chBackslash, 't']
  else if c.toNat < 32 ∨ isHTML c then
    [chBackslash, 'u', '0', '0', hexDigit (c.toNat / 16), hexDigit (c.toNat % 16)]
  else if isLineSep c then
    [chBackslash, 'u', '2', '0', '2', hexDigit (c.toNat % 16)]
  else [c]

/-- The escaped content of a string literal. -/
def escapeChars : List Char → List Char
  | [] => []
  | c :: cs => encodeChar c ++ escapeChars cs

/-- A Go string as a JSON string literal. -/
def appendString (s : List Char) : List Char :=
  chQuote :: (escapeChars s ++ [chQuote])

/-- The single-character escapes of a JSON string. -/
def unescapeSimple (e : Char) : Option Char :=
  if e = chQuote then some chQuote
  else if e = chBackslash then some chBackslash
  else if e = '/' then some '/'
  else if e = 'b' then some (Char.ofNat 8)
  else if e = 'f' then some (Char.ofNat 12)
  else if e = 'n' then some (Char.ofNat 10)
  else if e = 'r' then some (Char.ofNat 13)
  else if e = 't' then some (Char.ofNat 9)
  else none

/-- `getu4`: the number written by four hexadecimal digits. -/
def getu4 : List Char → Option (Nat × List Char)
  | h1 :: h2 :: h3 :: h4 :: rest =>
    match hexVal h1, hexVal h2, hexVal h3, hexVal h4 with
    | some a, some b, some c, some d => some (((a * 16 + b) * 16 + c) * 16 + d, rest)
    | _, _, _, _ => none
  | _ => none

/-- U+FFFD, written for an unpaired surrogate escape. -/
def replacementChar : Char := Char.ofNat 65533

/-- One step of `unquote` inside a string literal: the closing quote
(`none`), or one decoded code point, with the input that follows. -/
def unquoteStep : List Char → Option (Option Char × List Char)
  | [] => none
  | c :: cs =>
    if c = chQuote then some (none, cs)
    else if c = chBackslash then
      match cs with
      | [] => none
      | e :: cs1 =>
        if e = 'u' then
          match getu4 cs1 with
          | none => none
          | some (n, cs2) =>
            if 55296 ≤ n ∧ n < 56320 then
              match cs2 with
              | b :: u :: cs3 =>
                if b = chBackslash ∧ u = 'u' then
                  match getu4 cs3 with
                  | some (m, cs4) =>
                    if 56320 ≤ m ∧ m < 57344 then
                      some (some (Char.ofNat (65536 + (n - 55296) * 1024 + (m - 56320))), cs4)
                    else some (some replacementChar, cs2)
                  | none => some (some replacementChar, cs2)
                else some (some replacementChar, cs2)
              | _ => some (some replacementChar, cs2)
            else if 56320 ≤ n ∧ n < 57344 then some (some replacementChar, cs2)
            else some (some (Char.ofNat n), cs2)
        else
          match unescapeSimple e with
          | none => none
          | some d => some (some d, cs1)
    else if c.toNat < 32 then none
    else some (some c, cs)

/-- The body of a string literal (after the opening quote): its decoded
content and the input after the closing quote. -/
def unquoteBody : Nat → List Char → Option (List Char × List Char)
  | 0, _ => none
  | fuel + 1, cs =>
    match unquoteStep cs with
    | none => none
    | some (none, rest) => some ([], rest)
    | some (some d, rest) =>
      match unquoteBody fuel rest with
      | none => none
      | some (s, rest2) => some (d :: s, rest2)

/-- `unquote` with enough fuel for the whole input. -/
def unquote (cs : List Char) : Option (List Char × List Char) :=
  unquoteBody cs.length cs

/-- The input after leading insignificant space. -/
def skipWS : List Char → List Char
  | [] => []
  | c :: cs => if isSpace c then skipWS cs else c :: cs

/-- The input after leading decimal digits. -/
def skipDigits : List Char → List Char
  | [] => []
  | c :: cs => if isDigit c then skipDigits cs else c :: cs

/-- Input minus a required literal text. -/
def dropLiteral : List Char → List Char → Option (List Char)
  | [], cs => some cs
  | _ :: _, [] => none
  | l :: ls, c :: cs => if l = c then dropLiteral ls cs else none

/-- The optional exponent of a number. -/
def scanExp : List Char → Option (List Char)
  | [] => some []
  | c :: r =>
    if c = 'e' ∨ c = 'E' then
      let r1 := match r with
        | [] => r
        | s :: r2 => if s = '+' ∨ s = '-' then r2 else r
      match r1 with
      | [] => none
      | d :: r3 => if isDigit d then some (skipDigits r3) else none
    else some (c :: r)

/-- The optional fraction of a number, then its exponent. -/
def scanFrac : List Char → Option (List Char)
  | [] => some []
  | c :: r =>
    if c = '.' then
      match r with
      | [] => none
      | d :: r1 => if isDigit d then scanExp (skipDigits r1) else none
    else scanExp (c :: r)

/-- A JSON number: the input after it. -/
def scanNumber (cs : List Char) : Option (List Char) :=
  let cs1 := match cs with
    | [] => cs
    | c :: r => if c = '-' then r else cs
  match cs1 with
  | [] => none
  | c :: r =>
    if c = '0' then scanFrac r
    else if isDigit c then scanFrac (skipDigits r)
    else none

mutual
/-- One JSON value at the head of the input: the input after it, or `none`
where the scanner reports a syntax error. -/
def scanValue : Nat → List Char → Option (List Char)
  | 0, _ => none
  | _ + 1, [] => none
  | fuel + 1, c :: cs =>
    if c = chQuote then (unquote cs).map Prod.snd
    else if c = chLBrace then
      match skipWS cs with
      | [] => none
      | d :: ds => if d = chRBrace then some ds else scanMembers fuel (d :: ds)
    else if c = chLBracket then
      match skipWS cs with
      | [] => none
      | d :: ds => if d = chRBracket then some ds else scanElements fuel (d :: ds)
    else if c = 't' then dropLiteral "rue".toList cs
    else if c = 'f' then dropLiteral "alse".toList cs
    else if c = 'n' then dropLiteral "ull".toList cs
    else if c = '-' ∨ isDigit c then scanNumber (c :: cs)
    else none
/-- The elements of an array from the start of an element on. -/
def scanElements : Nat → List Char → Option (List Char)
  | 0, _ => none
  | fuel + 1, cs =>
    match scanValue fuel cs with
    | none => none
    | some r =>
      match skipWS r with
      | [] => none
      | d :: ds =>
        if d = chComma then scanElements fuel (skipWS ds)
        else if d = chRBracket then some ds
        else none
/-- The members of an object from the start of a key on. -/
def scanMembers : Nat → List Char → Option (List Char)
  | 0, _ => none
  | _ + 1, [] => none
  | fuel + 1, q :: ks =>
    if q = chQuote then
      match unquote ks with
      | none => none
      | some (_, r) =>
        match skipWS r with
        | [] => none
        | col :: vs =>
          if col = chColon then
            match scanValue fuel (skipWS vs) with
            | none => none
            | some r2 =>
              match skipWS r2 with
              | [] => none
              | d :: ds =>
                if d = chComma then scanMembers fuel (skipWS ds)
                else if d = chRBrace then some ds
                else none
          else none
    else none
end

/-- `checkValid`: the input is one JSON value, space around it allowed. -/
def validJSON (data : List Char) : Bool :=
  match scanValue (data.length + 1) (skipWS data) with
  | none => false
  | some r => skipWS r = []

/-- The byte-wise pass of `appendCompact` over valid JSON: space outside
string literals is dropped, `<`, `>`, `&`, U+2028 and U+2029 are escaped,
everything else is copied.  `inStr` tells whether the position is inside a
string literal, `esc` whether the previous byte was an unconsumed backslash. -/
def compactPass : Bool → Bool → List Char → List Char
  | _, _, [] => []
  | inStr, esc, c :: cs =>
    let out :=
      if isHTML c then
        [chBackslash, 'u', '0', '0', hexDigit (c.toNat / 16), hexDigit (c.toNat % 16)]
      else if isLineSep c then [chBackslash, 'u', '2', '0', '2', hexDigit (c.toNat % 16)]
      else if !inStr && isSpace c then []
      else [c]
    let inStr2 := if inStr then (esc || !(c = chQuote)) else decide (c = chQuote)
    let esc2 := inStr && !esc && decide (c = chBackslash)
    out ++ compactPass inStr2 esc2 cs

/-- `appendCompact` with HTML escaping: fails on invalid JSON. -/
def compact (src : List Char) : Option (List Char) :=
  if validJSON src then some (compactPass false false src) else none

/-- `json.Marshal` of a `SendSmsPayload`. -/
def MarshalSendSmsPayload (p : SendSmsPayload) : Except GoError (List Char) :=
  .ok (chLBrace :: (appendString "message_id".toList ++
    chColon :: (appendString p.MessageId.toList ++ [chRBrace])))

/-- `json.Marshal` of a `KafkaPayload`: the raw message is validated and
compacted (`RawMessage.MarshalJSON` gives `null` for a nil slice); invalid
raw data makes the call fail. -/
def MarshalKafkaPayload (p : KafkaPayload) : Except GoError (List Char) :=
  let raw := if p.Data = [] then "null".toList else p.Data
  match compact raw with
  | none => .error "json: error calling MarshalJSON for type json.RawMessage"
  | some d =>
    .ok (chLBrace :: (appendString "type".toList ++ chColon :: (appendString p.Typ.toList ++
      chComma :: (appendString "data".toList ++ chColon :: (d ++ [chRBrace])))))

/-- The members of an object from the start of a key on, each as its decoded
key and the raw text of its value. -/
def objectMembers : Nat → List Char → Option (List (List Char × List Char))
  | 0, _ => none
  | _ + 1, [] => none
  | fuel + 1, q :: ks =>
    if q = chQuote then
      match unquote ks with
      | none => none
      | some (key, r) =>
        match skipWS r with
        | [] => none
        | col :: vs =>
          if col = chColon then
            match scanValue ((skipWS vs).length + 1) (skipWS vs) with
            | none => none
            | some r2 =>
              let raw := (skipWS vs).take ((skipWS vs).length - r2.length)
              match skipWS r2 with
              | [] => none
              | d :: ds =>
                if d = chComma then
                  match objectMembers fuel (skipWS ds) with
                  | none => none
                  | some ms => some ((key, raw) :: ms)
                else if d = chRBrace then some [(key, raw)]
                else none
          else none
    else none

/-- The members that `Unmarshal` into a struct visits: a syntax error if the
input is not valid JSON, no member for the literal `null` or the empty object,
a type error for any other non-object. -/
def structMembers (data : List Char) : Except GoError (List (List Char × List Char)) :=
  if validJSON data then
    match skipWS data with
    | [] => .error "unexpected end of JSON input"
    | c :: cs =>
      if c = chLBrace then
        match skipWS cs with
        | [] => .error "unexpected end of JSON input"
        | d :: ds =>
          if d = chRBrace then .ok []
          else
            match objectMembers (data.length + 1) (d :: ds) with
            | none => .error "invalid character in object"
            | some ms => .ok ms
      else if c = 'n' then .ok []
      else .error "json: cannot unmarshal value into Go value of struct type"
  else .error "invalid character looking for beginning of value"

/-- The letter a character stands for when `encoding/json` compares an object
key with a field name without regard to case: an ASCII letter in lower case,
U+017F (long s) as `s`, U+212A (Kelvin sign) as `k`, every other character
itself.  These two are the only characters outside ASCII that Unicode simple
case folding identifies with an ASCII letter. -/
def foldChar (c : Char) : Char :=
  if c.toNat = 383 then 's' else if c.toNat = 8490 then 'k' else c.toLower

/-- Does an object key select the struct field with this JSON name (an ASCII
name, as the three tags `type`, `data`, `message_id` are)?  An exact match, or
a match under case folding. -/
def keyMatches (name key : List Char) : Bool :=
  key = name ∨ key.map foldChar = name.map foldChar

/-- Decoding a raw member value into a Go `string` field: a string literal
sets it, `null` leaves it, anything else is a type error. -/
def decodeStringField (raw : List Char) (old : String) : Except GoError String :=
  match raw with
  | [] => .error "unexpected end of JSON input"
  | c :: cs =>
    if c = chQuote then
      match unquote cs with
      | none => .error "invalid string literal"
      | some (s, _) => .ok (String.mk s)
    else if c = 'n' then .ok old
    else .error "json: cannot unmarshal value into Go struct field of type string"

/-- The members of an object decoded into a `KafkaPayload`, in order; keys
that select no field are skipped. -/
def decodeKafkaFields :
    List (List Char × List Char) → KafkaPayload → Except GoError KafkaPayload
  | [], p => .ok p
  | (key, raw) :: ms, p =>
    if keyMatches "type".toList key then
      match decodeStringField raw p.Typ with
      | .error e => .error e
      | .ok s => decodeKafkaFields ms { p with Typ := s }
    else if keyMatches "data".toList key then decodeKafkaFields ms { p with Data := raw }
    else decodeKafkaFields ms p

/-- The members of an object decoded into a `SendSmsPayload`, in order. -/
def decodeSendSmsFields :
    List (List Char × List Char) → SendSmsPayload → Except GoError SendSmsPayload
  | [], p => .ok p
  | (key, raw) :: ms, p =>
    if keyMatches "message_id".toList key then
      match decodeStringField raw p.MessageId with
      | .error e => .error e
      | .ok s => decodeSendSmsFields ms { p with MessageId := s }
    else decodeSendSmsFields ms p

/-- `json.Unmarshal(data, &payload)` for a zero `KafkaPayload`. -/
def UnmarshalKafkaPayload (data : List Char) : Except GoError KafkaPayload :=
  match structMembers data with
  | .error e => .error e
  | .ok ms => decodeKafkaFields ms { Typ := "", Data := [] }

/-- `json.Unmarshal(data, &sendSMSPayload)` for a zero `SendSmsPayload`. -/
def UnmarshalSendSmsPayload (data : List Char) : Except GoError SendSmsPayload :=
  match structMembers data with
  | .error e => .error e
  | .ok ms => decodeSendSmsFields ms { MessageId := "" }

/-! ## `kafka/kafka.go` -/

/-- `KafkaDaoImpl.Produce`: marshals the envelope and hands the bytes to the
producer; a marshalling error is returned before the producer is called. -/
def Produce (env : Env) (payload : KafkaPayload) (w : World) : Option GoError × World :=
  match MarshalKafkaPayload payload with
  | .error err => (some err, w)
  | .ok marshalledPayload =>
    let w1 : World := { w with calls := w.calls ++ [Call.kafkaProduce marshalledPayload] }
    match env.faults.produce with
    | some err => (some err, w1)
    | none => (none, { w1 with topic := w1.topic ++ [marshalledPayload] })

/-- How one iteration of a `for` loop hands control back: `next` is the next
iteration (`continue`, or the end of the body), `stop` leaves the loop.  The
loop of `Consume` has no `break` and no `return`; it is left only by a panic,
which nothing in the consumer goroutine recovers. -/
inductive LoopCtl where
  | next
  | stop
deriving DecidableEq, Repr

/-- The pointer `repo.GetNotificationServiceInstance()` returns: `nil` until
`InitNotificationService` has run, the instance afterwards.  `NewApp` starts
the goroutine of `Consume` before it calls `InitNotificationService`, and
`Consume` reads the pointer once, before its loop, so the loop may hold
either. -/
inductive ServiceInstance where
  | nil
  | ready
deriving DecidableEq, Repr

/-- The body of the `for` loop of `KafkaDaoImpl.Consume`, given the pointer
`serviceInstance` read before the loop and the outcome `pull` of
`ReadMessage(-1)`.  Called on a nil pointer, `HandleKafkaMessages` panics when
it reaches the receiver's `scyllaDao` for its first call, before any call has
left the process. -/
def ConsumeIteration (serviceInstance : ServiceInstance) (env : Env)
    (pull : Except GoError (List Char)) (w : World) : LoopCtl × World :=
  match pull with
  | .error _ => (LoopCtl.next, w)
  | .ok value =>
    match UnmarshalKafkaPayload value with
    | .error _ => (LoopCtl.next, w)
    | .ok payload =>
      if payload.Typ = "SMS_REQUEST" then
        match UnmarshalSendSmsPayload payload.Data with
        | .error _ => (LoopCtl.next, w)
        | .ok sendSMSPayload =>
          match serviceInstance with
          | ServiceInstance.nil => (LoopCtl.stop, w)
          | ServiceInstance.ready =>
            match HandleKafkaMessages env sendSMSPayload.MessageId w with
            | (some _, w1) => (LoopCtl.next, w1)
            | (none, w1) => (LoopCtl.next, w1)
      else (LoopCtl.next, w)

/-- The `for` loop of `KafkaDaoImpl.Consume` run on the successive outcomes of
`ReadMessage(-1)`: each iteration is `ConsumeIteration`; the loop goes on while
the iteration hands control back with `next`; when the outcomes are used up the
loop is blocked in the next pull. -/
def Consume (serviceInstance : ServiceInstance) (env : Env) :
    List (Except GoError (List Char)) → World → LoopCtl × World
  | [], w => (LoopCtl.next, w)
  | pull :: pulls, w =>
    match ConsumeIteration serviceInstance env pull w with
    | (LoopCtl.next, w1) => Consume serviceInstance env pulls w1
    | (LoopCtl.stop, w1) => (LoopCtl.stop, w1)

/-! ## `internal/handlers/handlers.go` -/

/-- A value of a `gin.H` response body. -/
inductive BodyValue where
  | str (s : String)
  | err (e : GoError)
deriving DecidableEq, Repr

/-- What `c.JSON(code, gin.H{...})` sends. -/
structure Response where
  code : Nat
  body : List (String × BodyValue)
deriving DecidableEq, Repr

/-- `SendSmsController`, given the outcome `bound` of `c.ShouldBindJSON`. -/
def SendSmsController (env : Env) (bound : Except GoError SendSms) (w : World) :
    Response × World :=
  match bound with
  | .error _ => ({ code := 400, body := [("message", .str "Invalid Request Body")] }, w)
  | .ok req =>
    match SendSMSService env req w with
    | ((_, some err), w1) => ({ code := 400, body := [("ERROR", .err err)] }, w1)
    | ((reqId, none), w1) =>
      let smsPayload : SendSmsPayload := { MessageId := reqId }
      match MarshalSendSmsPayload smsPayload with
      | .error _ =>
        ({ code := 500, body := [("error", .str "Failed to process request")] }, w1)
      | .ok smsPayloadBytes =>
        let payload : KafkaPayload := { Typ := "SMS_REQUEST", Data := smsPayloadBytes }
        if env.kafkaDao = false then
          ({ code := 500, body := [("error", .str "Failed to process request")] }, w1)
        else
          match Produce env payload w1 with
          | (some _, w2) =>
            ({ code := 500, body := [("error", .str "Failed to process request")] }, w2)
          | (none, w2) =>
            ({ code := 200, body := [("request_id", .str reqId),
                                     ("message", .str "message sent successfully!")] }, w2)

/-- Does the response body carry this request id? -/
def Response.carriesRequestId (resp : Response) (id : String) : Bool :=
  decide (("request_id", BodyValue.str id) ∈ resp.body)

/-! ## `internal/middlewares/authmiddleware.go` -/

/-- Go's `strings.Split(s, sep)` for a separator of one character: the pieces
of `s` between the occurrences of `sep`, at least one piece. -/
def stringsSplit (sep : Char) : List Char → List (List Char)
  | [] => [[]]
  | c :: cs =>
    if c = sep then [] :: stringsSplit sep cs
    else
      match stringsSplit sep cs with
      | [] => [[c]]
      | p :: ps => (c :: p) :: ps

/-- What a gin middleware does with a request: `next` is `c.Next()` without an
abort, `abort resp` is `c.JSON(...)` followed by `c.Abort()`. -/
inductive Handled where
  | next
  | abort (resp : Response)
deriving DecidableEq, Repr

/-- The handler returned by `AuthCheck`, given the value `token` of
`c.GetHeader("Authorization")`. -/
def AuthCheck (token : String) : Handled :=
  if token = "" then
    Handled.abort { code := 401, body := [("error", .str "Authorization header is required")] }
  else
    let parts := stringsSplit ' ' token.toList
    if parts.length ≠ 2 ∨ parts[0]? ≠ some "Bearer".toList then
      Handled.abort { code := 401, body := [("error",
        .str "Invalid authorization format. Expected \x27Bearer <token>\x27")] }
    else if parts[1]? ≠ some "password123".toList then
      Handled.abort { code := 401, body := [("error", .str "Unauthorized")] }
    else Handled.next

/-! ## `internal/middlewares/trackmiddleware.go`, `internal/utils/logger.go` -/

/-- A context key of a defined string type (`type contextKey string`).  Go
compares context keys as interface values, so two keys are equal only when
the defined type and the string both agree; `typeName` is the type with its
package. -/
structure ContextKey where
  typeName : String
  value : String
deriving DecidableEq, Repr

/-- A value stored in a context: a Go `string`, or a value of another type. -/
inductive ContextValue where
  | str (s : String)
  | other
deriving DecidableEq, Repr

/-- A `context.Context` as its chain of `WithValue` layers, the newest first;
the empty chain is a context without values. -/
abbrev Context := List (ContextKey × ContextValue)

/-- `context.WithValue(parent, key, val)`. -/
def WithValue (parent : Context) (key : ContextKey) (val : ContextValue) : Context :=
  (key, val) :: parent

/-- `ctx.Value(key)`: the value of the newest layer whose key equals `key`. -/
def Context.Value : Context → ContextKey → Option ContextValue
  | [], _ => none
  | (k, v) :: parent, key => if k = key then some v else Context.Value parent key

/-- `traceIDKey` of package `middlewares`: `contextKey("trace_id")` of the
type declared in `trackmiddleware.go`. -/
def middlewares.traceIDKey : ContextKey :=
  { typeName := "middlewares.contextKey", value := "trace_id" }

/-- `traceIDKey` of package `utils`: `contextKey("trace_id")` of the type
declared in `logger.go`. -/
def utils.traceIDKey : ContextKey :=
  { typeName := "utils.contextKey", value := "trace_id" }

/-- What `TraceMiddleware` leaves for the rest of the chain: the response
header it set and the context of the request. -/
structure Traced where
  header : String × String
  ctx : Context
deriving DecidableEq, Repr

/-- The handler returned by `TraceMiddleware`, given the context of the
incoming request: a new UUID is set as `X-Trace-Id` and stored in the request
context under the key of package `middlewares`. -/
def TraceMiddleware (env : Env) (ctx : Context) : Traced :=
  let traceID := env.uuid
  { header := ("X-Trace-Id", traceID),
    ctx := WithValue ctx middlewares.traceIDKey (ContextValue.str traceID) }

/-- `utils.GetTraceID`: the string stored under the key of package `utils`,
or the empty string. -/
def GetTraceID (ctx : Context) : String :=
  match Context.Value ctx utils.traceIDKey with
  | some (ContextValue.str traceID) => traceID
  | _ => ""

/-- `utils.LogWithContext`: the fields the returned logger adds to each
line. -/
def LogWithContext (ctx : Context) : List (String × String) :=
  [("trace_id", GetTraceID ctx)]

/-- `utils.RequestLogger`: the fields of the returned logger; `trace_id` is
added only when `GetTraceID` is non-empty. -/
def RequestLogger (ctx : Context) (component operation : String) : List (String × String) :=
  [("component", component), ("operation", operation)] ++
    (if GetTraceID ctx ≠ "" then [("trace_id", GetTraceID ctx)] else [])

/-- `utils.DatabaseLogger`: the fields of the returned logger; `request_id`
and `trace_id` are added only when non-empty. -/
def DatabaseLogger (ctx : Context) (operation table requestID : String) :
    List (String × String) :=
  [("component", "database"), ("operation", operation), ("table", table)] ++
    (if requestID ≠ "" then [("request_id", requestID)] else []) ++
    (if GetTraceID ctx ≠ "" then [("trace_id", GetTraceID ctx)] else [])

/-! ## Vocabulary of the statements -/

/-- The status `UpdateSMSDetailsInDB` binds: the argument's status, or
`"Success"` when that is empty. -/
def boundStatus (smsDetails : SMSRequest) : String :=
  if smsDetails.Status = "" then "Success" else smsDetails.Status

/-- The terminal statuses of the specification. -/
def isTerminal (status : String) : Bool :=
  status = "Sent" ∨ status = "Failed" ∨ status = "Blocked"

/-- The text `json.Marshal` writes for an object with one string member. -/
def objectText1 (k v : List Char) : List Char :=
  chLBrace :: (appendString k ++ chColon :: (appendString v ++ [chRBrace]))

/-- The text `json.Marshal` writes for a `KafkaPayload` with type `t` and raw
data `d`. -/
def envelopeText (t d : List Char) : List Char :=
  chLBrace :: (appendString "type".toList ++ chColon :: (appendString t ++ chComma ::
    (appendString "data".toList ++ chColon :: (d ++ [chRBrace]))))

/-- The four status values of the specification. -/
def isSpecStatus (status : String) : Bool :=
  status = "Pending" ∨ status = "Sent" ∨ status = "Failed" ∨ status = "Blocked"

/-- The worlds reachable from an empty table through the two functions that
write to `sms_requests`, with any arguments and any behaviour of the driver and
the clock. -/
inductive Reachable : World → Prop where
  | empty (w : World) (h : w.sms_requests = []) : Reachable w
  | insert (env : Env) (sms : AddSmsEntryInDb) (w : World) (h : Reachable w) :
      Reachable (InsertSMSRequest env sms w).2
  | update (env : Env) (smsDetails : SMSRequest) (w : World) (h : Reachable w) :
      Reachable (UpdateSMSDetailsInDB env smsDetails w).2

/-- A row as `InsertSMSRequest` writes it: `Pending`, no failure code, no
failure comment. -/
def SMSRequest.asInserted (row : SMSRequest) : Prop :=
  row.Status = "Pending" ∧ row.FailureCode = "" ∧ row.FailureComments = ""

/-- A row as `UpdateSMSDetailsInDB` leaves it: status, failure code and failure
comment all non-empty. -/
def SMSRequest.asUpdated (row : SMSRequest) : Prop :=
  row.Status ≠ "" ∧ row.FailureCode ≠ "" ∧ row.FailureComments ≠ ""

/-! ## Concrete inputs -/

/-- The clock that reads 100, 101, 102, ... -/
def tick : Nat → Time := fun k => 100 + k

/-- An environment in which every driver call succeeds. -/
def envOk : Env := { faults := Faults.none, uuid := "r-1", now := tick, kafkaDao := true }

/-- An environment in which the insert into `sms_requests` fails. -/
def envInsertFails : Env :=
  { envOk with faults := { Faults.none with insert := some "gocql: no hosts available" } }

/-- An environment in which the Kafka producer rejects the message. -/
def envProduceFails : Env :=
  { envOk with faults := { Faults.none with produce := some "Local: Queue full" } }

/-- A submit request. -/
def reqHi : SendSms := { PhoneNumber := "+15550001", Message := "hi" }

/-- The empty world. -/
def w0 : World :=
  { sms_requests := [], blacklisted_numbers_set := [], topic := [], clockReads := 0, calls := [] }

/-- A `Pending` request. -/
def recPending : SMSRequest :=
  { ID := "r-1", PhoneNumber := "+15550001", Message := "hi", Status := "Pending",
    FailureCode := "", FailureComments := "", CreatedAt := 100, UpdatedAt := 101 }

/-- One `Pending` request, empty blacklist. -/
def wPending : World := { w0 with sms_requests := [recPending], clockReads := 2 }

/-- A `Pending` request to the number `+15550002`. -/
def recBlack : SMSRequest :=
  { ID := "r-2", PhoneNumber := "+15550002", Message := "hi", Status := "Pending",
    FailureCode := "", FailureComments := "", CreatedAt := 100, UpdatedAt := 101 }

/-- One `Pending` request whose number is blacklisted. -/
def wBlack : World :=
  { w0 with sms_requests := [recBlack], blacklisted_numbers_set := ["+15550002"],
            clockReads := 2 }

/-- A request that has the status `Sent`. -/
def recSent : SMSRequest :=
  { ID := "r-3", PhoneNumber := "+15550003", Message := "hi", Status := "Sent",
    FailureCode := "", FailureComments := "", CreatedAt := 100, UpdatedAt := 103 }

/-- One request that already has the terminal status `Sent`, empty blacklist. -/
def wSent : World := { w0 with sms_requests := [recSent], clockReads := 3 }

/-- An update argument for the request `r-3` that carries the status `Failed`. -/
def updFailed : SMSRequest :=
  { recSent with Status := "Failed", FailureCode := "E42", FailureComments := "carrier down" }

/-- The message value published for the request id `r-1`. -/
def wireR1 : List Char :=
  "\x7b\"type\":\"SMS_REQUEST\",\"data\":\x7b\"message_id\":\"r-1\"\x7d\x7d".toList

/-- An environment in which the select on `sms_requests` fails. -/
def envSelectFails : Env :=
  { envOk with faults := { Faults.none with select := some "gocql: no hosts available" } }

/-- The argument of the insert for the request `r-1`. -/
def smsHi : AddSmsEntryInDb :=
  { RequestID := "r-1", PhoneNumber := "+15550001", Message := "hi" }

/-- The empty world after the insert of `r-1` and an update that writes back
the record as it is read after the insert. -/
def wWrittenBack : World :=
  (UpdateSMSDetailsInDB envOk recPending (InsertSMSRequest envOk smsHi w0).2).2

/-- An update argument for the request `r-1` with an empty status. -/
def updEmptyStatus : SMSRequest := { recPending with Status := "" }

/-- A well-formed envelope of the type `EMAIL_REQUEST`. -/
def wireEmail : List Char :=
  "\x7b\"type\":\"EMAIL_REQUEST\",\"data\":\x7b\"message_id\":\"r-1\"\x7d\x7d".toList

/-- The data of `wireR1` and of `wireEmail`. -/
def dataR1 : List Char := "\x7b\"message_id\":\"r-1\"\x7d".toList

/-- A clock that does not move. -/
def frozen : Nat → Time := fun _ => 100

/-- An environment in which the blacklist check fails. -/
def envCheckFails : Env :=
  { envOk with faults := { Faults.none with sismember := some "redis: connection refused" } }

/-- An environment whose next UUID is `t-1`. -/
def envTrace : Env := { envOk with uuid := "t-1" }

/-! ## The table and the call history -/

theorem callsDuring_append (w w2 : World) (d : List Call) (h : w2.calls = w.calls ++ d) :
    callsDuring w w2 = d := by
  simp [callsDuring, h]

theorem cqlSelect_ID (id : String) (rec : SMSRequest) (t : List SMSRequest)
    (h : cqlSelect id t = some rec) : rec.ID = id := by
  induction t with
  | nil => simp [cqlSelect] at h
  | cons r rs ih =>
    unfold cqlSelect at h
    split at h
    · next hr => cases h; exact hr
    · exact ih h

theorem cqlSelect_cqlInsert (row : SMSRequest) (t : List SMSRequest) :
    cqlSelect row.ID (cqlInsert row t) = some row := by
  induction t with
  | nil => simp [cqlInsert, cqlSelect]
  | cons r rs ih =>
    unfold cqlInsert
    split
    · simp [cqlSelect]
    · next hr => simp [cqlSelect, hr, ih]

theorem cqlSelect_cqlUpdate (id st fc fm : String) (now : Time) (rec : SMSRequest)
    (t : List SMSRequest) (h : cqlSelect id t = some rec) :
    cqlSelect id (cqlUpdate id st fc fm now t)
      = some { rec with Status := st, FailureCode := fc, FailureComments := fm,
                        UpdatedAt := now } := by
  induction t with
  | nil => simp [cqlSelect] at h
  | cons r rs ih =>
    unfold cqlSelect at h
    unfold cqlUpdate
    split at h
    · next hr => cases h; simp [hr, cqlSelect]
    · next hr => simp [hr, cqlSelect, ih h]

theorem cqlSelect_cqlUpdate_status (id st fc fm : String) (now : Time) (t : List SMSRequest) :
    (cqlSelect id (cqlUpdate id st fc fm now t)).map SMSRequest.Status = some st := by
  induction t with
  | nil => simp [cqlUpdate, cqlSelect]
  | cons r rs ih =>
    unfold cqlUpdate
    split
    · next hr => simp [cqlSelect, hr]
    · next hr => simp [cqlSelect, hr, ih]

/-! ## The four ways through `HandleKafkaMessages` -/

/-- What `HandleKafkaMessages` does when the read fails. -/
theorem HandleKafkaMessages_read_error (env : Env) (requestId : String) (w : World)
    (e : GoError) (h : (GetSMSDetailsFromDB env requestId w).1 = .error e) :
    HandleKafkaMessages env requestId w
      = (none, { w with calls := w.calls ++ [Call.scyllaSelect requestId] }) := by
  unfold HandleKafkaMessages
  unfold GetSMSDetailsFromDB at h ⊢
  cases hs : env.faults.select with
  | some err => simp
  | none =>
    simp only [hs] at h
    cases hc : cqlSelect requestId w.sms_requests with
    | none => simp [hc]
    | some rec => simp [hc] at h

/-- What `HandleKafkaMessages` does when the read succeeds and the blacklist
check fails. -/
theorem HandleKafkaMessages_check_error (env : Env) (requestId : String) (w : World)
    (rec : SMSRequest) (e : GoError)
    (hsel : env.faults.select = none) (hrec : cqlSelect requestId w.sms_requests = some rec)
    (hchk : env.faults.sismember = some e) :
    HandleKafkaMessages env requestId w
      = (none, { w with calls := w.calls ++
          [Call.scyllaSelect requestId, Call.redisSIsMember rec.PhoneNumber] }) := by
  simp [HandleKafkaMessages, GetSMSDetailsFromDB, CheckNumberInBlacklistedSet, hsel, hrec, hchk]

/-- What `HandleKafkaMessages` does for a blacklisted number. -/
theorem HandleKafkaMessages_blacklisted (env : Env) (requestId : String) (w : World)
    (rec : SMSRequest)
    (hsel : env.faults.select = none) (hrec : cqlSelect requestId w.sms_requests = some rec)
    (hchk : env.faults.sismember = none)
    (hmem : rec.PhoneNumber ∈ w.blacklisted_numbers_set) :
    HandleKafkaMessages env requestId w
      = (none, { w with calls := w.calls ++
          [Call.scyllaSelect requestId, Call.redisSIsMember rec.PhoneNumber] }) := by
  simp [HandleKafkaMessages, GetSMSDetailsFromDB, CheckNumberInBlacklistedSet, hsel, hrec, hchk,
    hmem]

/-- What `HandleKafkaMessages` does for a number that is not blacklisted. -/
theorem HandleKafkaMessages_send (env : Env) (requestId : String) (w : World)
    (rec : SMSRequest)
    (hsel : env.faults.select = none) (hrec : cqlSelect requestId w.sms_requests = some rec)
    (hchk : env.faults.sismember = none)
    (hmem : rec.PhoneNumber ∉ w.blacklisted_numbers_set) :
    HandleKafkaMessages env requestId w
      = UpdateSMSDetailsInDB env rec
          { w with calls := w.calls ++
              [Call.scyllaSelect requestId, Call.redisSIsMember rec.PhoneNumber,
               Call.sendMessage rec] } := by
  cases hu : env.faults.update <;>
    simp [HandleKafkaMessages, GetSMSDetailsFromDB, CheckNumberInBlacklistedSet, hsel, hrec,
      hchk, hmem, SendMessage, UpdateSMSDetailsInDB, hu]

/-- When the read fails, the blacklist check fails or the number is
blacklisted, `HandleKafkaMessages` returns nil, changes nothing but the call
history, and the calls it adds are neither sends nor store writes. -/
theorem HandleKafkaMessages_stopped (env : Env) (requestId : String) (w : World)
    (rec : SMSRequest) (hrec : cqlSelect requestId w.sms_requests = some rec)
    (hstop : env.faults.select ≠ none ∨ env.faults.sismember ≠ none ∨
      rec.PhoneNumber ∈ w.blacklisted_numbers_set) :
    ∃ d : List Call,
      HandleKafkaMessages env requestId w = (none, { w with calls := w.calls ++ d }) ∧
      ∀ c ∈ d, c.isSend = false ∧ c.isStoreWrite = false := by
  cases hsel : env.faults.select with
  | some err =>
    refine ⟨[Call.scyllaSelect requestId], ?_, ?_⟩
    · exact HandleKafkaMessages_read_error env requestId w err
        (by simp [GetSMSDetailsFromDB, hsel])
    · simp [Call.isSend, Call.isStoreWrite]
  | none =>
    refine ⟨[Call.scyllaSelect requestId, Call.redisSIsMember rec.PhoneNumber], ?_, ?_⟩
    · cases hchk : env.faults.sismember with
      | some err => exact HandleKafkaMessages_check_error env requestId w rec err hsel hrec hchk
      | none =>
        have hmem : rec.PhoneNumber ∈ w.blacklisted_numbers_set := by
          rcases hstop with h | h | h
          · exact absurd hsel h
          · exact absurd hchk h
          · exact h
        exact HandleKafkaMessages_blacklisted env requestId w rec hsel hrec hchk hmem
    · simp [Call.isSend, Call.isStoreWrite]

/-- For a blacklisted number `HandleKafkaMessages` returns nil whatever the
drivers do, changes nothing but the call history, and the calls it adds are
neither sends nor store writes. -/
theorem HandleKafkaMessages_blacklisted_any (env : Env) (requestId : String) (w : World)
    (rec : SMSRequest) (hrec : cqlSelect requestId w.sms_requests = some rec)
    (hmem : rec.PhoneNumber ∈ w.blacklisted_numbers_set) :
    ∃ d : List Call,
      HandleKafkaMessages env requestId w = (none, { w with calls := w.calls ++ d }) ∧
      ∀ c ∈ d, c.isSend = false ∧ c.isStoreWrite = false :=
  HandleKafkaMessages_stopped env requestId w rec hrec (Or.inr (Or.inr hmem))

/-! ## `encoding/json`: string literals survive the round trip -/

theorem hexVal_hexDigit (d : Nat) (h : d < 16) : hexVal (hexDigit d) = some d := by
  interval_cases d <;> decide

theorem hexDigit_plain (d : Nat) (h : d < 16) :
    hexDigit d ≠ chQuote ∧ hexDigit d ≠ chBackslash ∧ isHTML (hexDigit d) = false ∧
    isLineSep (hexDigit d) = false := by
  interval_cases d <;> decide

theorem char_eq_of_toNat (c : Char) (n : Nat) (h : c.toNat = n) : c = Char.ofNat n := by
  rw [← h, Char.ofNat_toNat]

theorem unquoteStep_simple (e d : Char) (tail : List Char) (hu : e ≠ 'u')
    (h : unescapeSimple e = some d) :
    unquoteStep (chBackslash :: e :: tail) = some (some d, tail) := by
  have hq : chBackslash ≠ chQuote := by decide
  simp [unquoteStep, hq, hu, h]

theorem unquoteStep_u4 (a b c d : Char) (n : Nat) (tail : List Char)
    (hg : getu4 (a :: b :: c :: d :: tail) = some (n, tail)) (hn : n < 55296) :
    unquoteStep (chBackslash :: 'u' :: a :: b :: c :: d :: tail)
      = some (some (Char.ofNat n), tail) := by
  have hq : chBackslash ≠ chQuote := by decide
  have h1 : ¬ (55296 ≤ n ∧ n < 56320) := by omega
  have h2 : ¬ (56320 ≤ n ∧ n < 57344) := by omega
  simp only [unquoteStep, hq, if_false, if_true, hg, h1, h2]

theorem unquoteStep_plain (c : Char) (tail : List Char) (hq : c ≠ chQuote)
    (hb : c ≠ chBackslash) (hc : ¬ c.toNat < 32) :
    unquoteStep (c :: tail) = some (some c, tail) := by
  simp [unquoteStep, hq, hb, hc]

theorem getu4_ascii (n : Nat) (tail : List Char) (h : n < 256) :
    getu4 ('0' :: '0' :: hexDigit (n / 16) :: hexDigit (n % 16) :: tail) = some (n, tail) := by
  have h0 : hexVal '0' = some 0 := by decide
  have ha := hexVal_hexDigit (n / 16) (by omega)
  have hb := hexVal_hexDigit (n % 16) (by omega)
  simp only [getu4, h0, ha, hb]
  simp
  omega

theorem getu4_linesep (n : Nat) (tail : List Char) (h : n = 8232 ∨ n = 8233) :
    getu4 ('2' :: '0' :: '2' :: hexDigit (n % 16) :: tail) = some (n, tail) := by
  have h0 : hexVal '0' = some 0 := by decide
  have h2 : hexVal '2' = some 2 := by decide
  have hb := hexVal_hexDigit (n % 16) (by omega)
  simp only [getu4, h0, h2, hb]
  simp
  omega

/-- Decoding undoes `encodeChar`. -/
theorem unquoteStep_encodeChar (c : Char) (tail : List Char) :
    unquoteStep (encodeChar c ++ tail) = some (some c, tail) := by
  unfold encodeChar
  split_ifs with h1 h2 h3 h4 h5 h6 h7 h8
  · rcases h1 with rfl | rfl
    · exact unquoteStep_simple _ _ tail (by decide) (by decide)
    · exact unquoteStep_simple _ _ tail (by decide) (by decide)
  · rw [char_eq_of_toNat c 8 h2]
    exact unquoteStep_simple _ _ tail (by decide) (by decide)
  · rw [char_eq_of_toNat c 12 h3]
    exact unquoteStep_simple _ _ tail (by decide) (by decide)
  · rw [char_eq_of_toNat c 10 h4]
    exact unquoteStep_simple _ _ tail (by decide) (by decide)
  · rw [char_eq_of_toNat c 13 h5]
    exact unquoteStep_simple _ _ tail (by decide) (by decide)
  · rw [char_eq_of_toNat c 9 h6]
    exact unquoteStep_simple _ _ tail (by decide) (by decide)
  · have hn : c.toNat < 256 := by
      rcases h7 with h | h
      · omega
      · simp only [isHTML, Bool.decide_or, Bool.or_eq_true, decide_eq_true_eq] at h
        omega
    have hg := getu4_ascii c.toNat tail hn
    have := unquoteStep_u4 _ _ _ _ c.toNat tail hg (by omega)
    rw [Char.ofNat_toNat] at this
    exact this
  · have hn : c.toNat = 8232 ∨ c.toNat = 8233 := by
      simpa [isLineSep] using h8
    have hg := getu4_linesep c.toNat tail hn
    have := unquoteStep_u4 _ _ _ _ c.toNat tail hg (by omega)
    rw [Char.ofNat_toNat] at this
    exact this
  · push_neg at h1 h7
    exact unquoteStep_plain c tail h1.1 h1.2 (by omega)

theorem length_le_escapeChars (s : List Char) : s.length ≤ (escapeChars s).length := by
  induction s with
  | nil => simp [escapeChars]
  | cons c cs ih =>
    have hc : 1 ≤ (encodeChar c).length := by
      unfold encodeChar
      split_ifs <;> simp
    simp only [escapeChars, List.length_append, List.length_cons]
    omega

theorem unquoteBody_escapeChars (s : List Char) (tail : List Char) :
    ∀ fuel, s.length < fuel →
      unquoteBody fuel (escapeChars s ++ chQuote :: tail) = some (s, tail) := by
  induction s with
  | nil =>
    intro fuel hf
    obtain ⟨k, rfl⟩ : ∃ k, fuel = k + 1 := ⟨fuel - 1, by simp at hf; omega⟩
    simp [escapeChars, unquoteBody, unquoteStep]
  | cons c cs ih =>
    intro fuel hf
    obtain ⟨k, rfl⟩ : ∃ k, fuel = k + 1 := ⟨fuel - 1, by simp at hf; omega⟩
    have hk : cs.length < k := by simp at hf; omega
    simp only [escapeChars, List.append_assoc, unquoteBody, unquoteStep_encodeChar, ih k hk]

/-- A string literal written by `appendString` is read back by `unquote`. -/
theorem unquote_escapeChars (s : List Char) (tail : List Char) :
    unquote (escapeChars s ++ chQuote :: tail) = some (s, tail) := by
  unfold unquote
  apply unquoteBody_escapeChars
  have := length_le_escapeChars s
  simp only [List.length_append, List.length_cons]
  omega

/-! ## `encoding/json`: compaction leaves marshalled text alone -/

theorem compactPass_plain (c : Char) (tail : List Char) (hq : c ≠ chQuote)
    (hb : c ≠ chBackslash) (hh : isHTML c = false) (hl : isLineSep c = false) :
    compactPass true false (c :: tail) = c :: compactPass true false tail := by
  simp [compactPass, hq, hb, hh, hl]

theorem compactPass_escaped (e : Char) (tail : List Char) (hh : isHTML e = false)
    (hl : isLineSep e = false) :
    compactPass true false (chBackslash :: e :: tail)
      = chBackslash :: e :: compactPass true false tail := by
  have h1 : isHTML chBackslash = false := by decide
  have h2 : isLineSep chBackslash = false := by decide
  have h3 : chBackslash ≠ chQuote := by decide
  simp [compactPass, hh, hl, h1, h2, h3]

theorem compactPass_close (tail : List Char) :
    compactPass true false (chQuote :: tail) = chQuote :: compactPass false false tail := by
  have h1 : isHTML chQuote = false := by decide
  have h2 : isLineSep chQuote = false := by decide
  have h3 : chQuote ≠ chBackslash := by decide
  simp [compactPass, h1, h2, h3]

theorem compactPass_open (tail : List Char) :
    compactPass false false (chQuote :: tail) = chQuote :: compactPass true false tail := by
  have h1 : isHTML chQuote = false := by decide
  have h2 : isLineSep chQuote = false := by decide
  have h3 : isSpace chQuote = false := by decide
  simp [compactPass, h1, h2, h3]

theorem compactPass_outside (c : Char) (tail : List Char) (hq : c ≠ chQuote)
    (hh : isHTML c = false) (hl : isLineSep c = false) (hs : isSpace c = false) :
    compactPass false false (c :: tail) = c :: compactPass false false tail := by
  simp [compactPass, hq, hh, hl, hs]

theorem compactPass_encodeChar (c : Char) (tail : List Char) :
    compactPass true false (encodeChar c ++ tail)
      = encodeChar c ++ compactPass true false tail := by
  unfold encodeChar
  split_ifs with h1 h2 h3 h4 h5 h6 h7 h8
  · rcases h1 with rfl | rfl
    · exact compactPass_escaped _ tail (by decide) (by decide)
    · exact compactPass_escaped _ tail (by decide) (by decide)
  · exact compactPass_escaped _ tail (by decide) (by decide)
  · exact compactPass_escaped _ tail (by decide) (by decide)
  · exact compactPass_escaped _ tail (by decide) (by decide)
  · exact compactPass_escaped _ tail (by decide) (by decide)
  · exact compactPass_escaped _ tail (by decide) (by decide)
  · have hn : c.toNat < 256 := by
      rcases h7 with h | h
      · omega
      · simp only [isHTML, Bool.decide_or, Bool.or_eq_true, decide_eq_true_eq] at h
        omega
    obtain ⟨a1, a2, a3, a4⟩ := hexDigit_plain (c.toNat / 16) (by omega)
    obtain ⟨b1, b2, b3, b4⟩ := hexDigit_plain (c.toNat % 16) (by omega)
    simp only [List.cons_append, List.nil_append]
    rw [compactPass_escaped _ _ (by decide) (by decide),
      compactPass_plain _ _ (by decide) (by decide) (by decide) (by decide),
      compactPass_plain _ _ (by decide) (by decide) (by decide) (by decide),
      compactPass_plain _ _ a1 a2 a3 a4, compactPass_plain _ _ b1 b2 b3 b4]
  · obtain ⟨b1, b2, b3, b4⟩ := hexDigit_plain (c.toNat % 16) (Nat.mod_lt _ (by decide))
    simp only [List.cons_append, List.nil_append]
    rw [compactPass_escaped _ _ (by decide) (by decide),
      compactPass_plain _ _ (by decide) (by decide) (by decide) (by decide),
      compactPass_plain _ _ (by decide) (by decide) (by decide) (by decide),
      compactPass_plain _ _ (by decide) (by decide) (by decide) (by decide),
      compactPass_plain _ _ b1 b2 b3 b4]
  · push_neg at h1 h7
    have hh : isHTML c = false := by simpa using h7.2
    have hl : isLineSep c = false := by simpa using h8
    simpa using compactPass_plain c tail h1.1 h1.2 hh hl

theorem compactPass_escapeChars (s : List Char) (tail : List Char) :
    compactPass true false (escapeChars s ++ chQuote :: tail)
      = escapeChars s ++ chQuote :: compactPass false false tail := by
  induction s with
  | nil => simp [escapeChars, compactPass_close]
  | cons c cs ih => simp only [escapeChars, List.append_assoc, compactPass_encodeChar, ih]

/-- A string literal written by `appendString` is copied by the compaction. -/
theorem compactPass_appendString (s : List Char) (tail : List Char) :
    compactPass false false (appendString s ++ tail)
      = appendString s ++ compactPass false false tail := by
  simp [appendString, compactPass_open, compactPass_escapeChars]

/-! ## `encoding/json`: the scanner and the decoder on marshalled text -/

theorem appendString_append (s rest : List Char) :
    appendString s ++ rest = chQuote :: (escapeChars s ++ chQuote :: rest) := by
  simp [appendString]

theorem skipWS_cons (c : Char) (cs : List Char) (h : isSpace c = false) :
    skipWS (c :: cs) = c :: cs := by
  simp [skipWS, h]

theorem scanValue_appendString (fuel : Nat) (s rest : List Char) :
    scanValue (fuel + 1) (appendString s ++ rest) = some rest := by
  simp [appendString_append, scanValue, unquote_escapeChars]

/-- The scanner accepts an object with one string member. -/
theorem scanValue_object1 (fuel : Nat) (k v rest : List Char) :
    scanValue (fuel + 3)
      (chLBrace :: (appendString k ++ chColon :: (appendString v ++ chRBrace :: rest)))
      = some rest := by
  have h1 : chLBrace ≠ chQuote := by decide
  have h2 : isSpace chQuote = false := by decide
  have h3 : chQuote ≠ chRBrace := by decide
  have h4 : isSpace chColon = false := by decide
  have h5 : isSpace chRBrace = false := by decide
  have h6 : chRBrace ≠ chComma := by decide
  have hv := scanValue_appendString fuel v (chRBrace :: rest)
  rw [appendString_append] at hv
  simp only [appendString_append, scanValue, h1, if_false, if_true, skipWS_cons _ _ h2, h3,
    scanMembers, unquote_escapeChars, skipWS_cons _ _ h4, hv, skipWS_cons _ _ h5, h6]
  simp [skipWS_cons _ _ h5, h6]

theorem take_consumed (v rest : List Char) :
    (v ++ rest).take ((v ++ rest).length - rest.length) = v := by
  simp

theorem skipWS_appendString (s rest : List Char) :
    skipWS (appendString s ++ rest) = appendString s ++ rest := by
  rw [appendString_append]
  exact skipWS_cons _ _ (by decide)

/-- One member `key: value` in front of a separator, as the validity scanner
sees it; `v` is any text the scanner accepts as one value. -/
theorem scanMembers_member (fuel : Nat) (k v : List Char) (sep : Char) (rest : List Char)
    (hv : ∀ f r, scanValue (f + 3) (v ++ r) = some r)
    (hw : ∀ r, skipWS (v ++ r) = v ++ r) (hsep : isSpace sep = false) :
    scanMembers (fuel + 4) (appendString k ++ chColon :: (v ++ sep :: rest))
      = if sep = chComma then scanMembers (fuel + 3) (skipWS rest)
        else if sep = chRBrace then some rest else none := by
  have h4 : isSpace chColon = false := by decide
  rw [appendString_append]
  simp only [scanMembers, if_true, unquote_escapeChars,
    skipWS_cons _ _ h4, hw, hv, skipWS_cons _ _ hsep]

/-- The same member as the decoder sees it: the decoded key with the raw text
of the value. -/
theorem objectMembers_member (fuel : Nat) (k v : List Char) (sep : Char) (rest : List Char)
    (hv : ∀ f r, scanValue (f + 3) (v ++ r) = some r)
    (hw : ∀ r, skipWS (v ++ r) = v ++ r) (hlen : 2 ≤ v.length) (hsep : isSpace sep = false) :
    objectMembers (fuel + 1) (appendString k ++ chColon :: (v ++ sep :: rest))
      = if sep = chComma then
          match objectMembers fuel (skipWS rest) with
          | none => none
          | some ms => some ((k, v) :: ms)
        else if sep = chRBrace then some [(k, v)] else none := by
  have h4 : isSpace chColon = false := by decide
  obtain ⟨g, hg⟩ : ∃ g, (v ++ sep :: rest).length + 1 = g + 3 :=
    ⟨(v ++ sep :: rest).length - 2, by simp only [List.length_append, List.length_cons]; omega⟩
  have ht := take_consumed v (sep :: rest)
  rw [appendString_append]
  simp only [objectMembers, if_true, unquote_escapeChars,
    skipWS_cons _ _ h4, hw, hg, hv, ht, skipWS_cons _ _ hsep]

theorem appendString_scans (s : List Char) :
    (∀ f r, scanValue (f + 3) (appendString s ++ r) = some r) ∧
    (∀ r, skipWS (appendString s ++ r) = appendString s ++ r) ∧
    2 ≤ (appendString s).length :=
  ⟨fun f r => scanValue_appendString (f + 2) s r, skipWS_appendString s,
    by simp [appendString]⟩

theorem objectText1_scans (k v : List Char) :
    (∀ f r, scanValue (f + 3) (objectText1 k v ++ r) = some r) ∧
    (∀ r, skipWS (objectText1 k v ++ r) = objectText1 k v ++ r) ∧
    2 ≤ (objectText1 k v).length := by
  refine ⟨fun f r => ?_, fun r => ?_, by simp [objectText1]; omega⟩
  · have := scanValue_object1 f k v r
    simpa [objectText1] using this
  · exact skipWS_cons _ _ (by decide)

theorem validJSON_of_scans (v : List Char)
    (hv : ∀ f r, scanValue (f + 3) (v ++ r) = some r)
    (hw : ∀ r, skipWS (v ++ r) = v ++ r) (hlen : 2 ≤ v.length) : validJSON v = true := by
  obtain ⟨g, hg⟩ : ∃ g, v.length + 1 = g + 3 := ⟨v.length - 2, by omega⟩
  have h1 := hv g []
  have h2 := hw []
  simp only [List.append_nil] at h1 h2
  simp [validJSON, h2, hg, h1, skipWS]

theorem compactPass_objectText1 (k v : List Char) (tail : List Char) :
    compactPass false false (objectText1 k v ++ tail)
      = objectText1 k v ++ compactPass false false tail := by
  have hb : compactPass false false (chLBrace :: (appendString k ++ chColon ::
      (appendString v ++ chRBrace :: tail)))
      = chLBrace :: (appendString k ++ chColon ::
          (appendString v ++ chRBrace :: compactPass false false tail)) := by
    rw [compactPass_outside _ _ (by decide) (by decide) (by decide) (by decide),
      compactPass_appendString,
      compactPass_outside _ _ (by decide) (by decide) (by decide) (by decide),
      compactPass_appendString,
      compactPass_outside _ _ (by decide) (by decide) (by decide) (by decide)]
  simpa [objectText1] using hb

/-- `appendCompact` returns a marshalled one-member object as it is. -/
theorem compact_objectText1 (k v : List Char) :
    compact (objectText1 k v) = some (objectText1 k v) := by
  obtain ⟨h1, h2, h3⟩ := objectText1_scans k v
  have hc := compactPass_objectText1 k v []
  simp only [List.append_nil] at hc
  have hn : compactPass false false [] = [] := rfl
  rw [hn, List.append_nil] at hc
  simp only [compact, validJSON_of_scans _ h1 h2 h3, hc, if_true]

theorem decodeStringField_appendString (s : List Char) (old : String) :
    decodeStringField (appendString s) old = .ok (String.mk s) := by
  have h := unquote_escapeChars s []
  simp [decodeStringField, appendString, h]

/-- `Unmarshal` finds the one member of a marshalled one-member object. -/
theorem structMembers_objectText1 (k v : List Char) :
    structMembers (objectText1 k v) = .ok [(k, appendString v)] := by
  obtain ⟨h1, h2, h3⟩ := objectText1_scans k v
  obtain ⟨a1, a2, a3⟩ := appendString_scans v
  have hm := objectMembers_member (objectText1 k v).length k (appendString v) chRBrace []
    a1 a2 a3 (by decide)
  have hne : chRBrace ≠ chComma := by decide
  simp only [hne, if_false, if_true] at hm
  have hs := h2 []
  simp only [List.append_nil] at hs
  have hk := skipWS_appendString k (chColon :: (appendString v ++ [chRBrace]))
  unfold structMembers
  rw [validJSON_of_scans _ h1 h2 h3, hs]
  simp only [objectText1, if_true] at hk hm ⊢
  rw [hk]
  rw [appendString_append] at hm ⊢
  have hq : chQuote ≠ chRBrace := by decide
  simp only [hq, if_false, hm]

/-- Keys that differ from a field name in case only select the field, the long
s and the Kelvin sign included; another key does not. -/
theorem keyMatches_folds :
    keyMatches "message_id".toList "MESSAGE_ID".toList = true ∧
    keyMatches "message_id".toList "me\u017f\u017fage_id".toList = true ∧
    keyMatches "data".toList "\u212aata".toList = false ∧
    keyMatches "message_id".toList "messageid".toList = false := by
  decide

/-- `json.Unmarshal` reads back what `json.Marshal` wrote for a
`SendSmsPayload`. -/
theorem UnmarshalSendSmsPayload_objectText1 (v : List Char) :
    UnmarshalSendSmsPayload (objectText1 "message_id".toList v)
      = .ok { MessageId := String.mk v } := by
  have hk : keyMatches "message_id".toList "message_id".toList = true := by decide
  simp only [UnmarshalSendSmsPayload, structMembers_objectText1, decodeSendSmsFields, hk,
    if_true, decodeStringField_appendString]

theorem structMembers_envelopeText (t d : List Char)
    (hv : ∀ f r, scanValue (f + 3) (d ++ r) = some r)
    (hw : ∀ r, skipWS (d ++ r) = d ++ r) (hlen : 2 ≤ d.length) :
    structMembers (envelopeText t d)
      = .ok [("type".toList, appendString t), ("data".toList, d)] := by
  obtain ⟨a1, a2, a3⟩ := appendString_scans t
  have hq : chQuote ≠ chRBrace := by decide
  have hne : chRBrace ≠ chComma := by decide
  -- the validity scan
  obtain ⟨g, hg⟩ : ∃ g, (envelopeText t d).length + 1 = g + 6 :=
    ⟨(envelopeText t d).length - 5, by simp [envelopeText, appendString]; omega⟩
  have hs2 := scanMembers_member g "data".toList d chRBrace [] hv hw (by decide)
  have hs1 := scanMembers_member (g + 1) "type".toList (appendString t) chComma
    (appendString "data".toList ++ chColon :: (d ++ [chRBrace])) a1 a2 (by decide)
  rw [skipWS_appendString] at hs1
  simp only [hne, if_false, if_true] at hs1 hs2
  rw [show g + 1 + 3 = g + 4 from rfl, hs2] at hs1
  have hvalid : validJSON (envelopeText t d) = true := by
    have hsk : skipWS (envelopeText t d) = envelopeText t d := skipWS_cons _ _ (by decide)
    have hk := skipWS_appendString "type".toList
      (chColon :: (appendString t ++ chComma ::
        (appendString "data".toList ++ chColon :: (d ++ [chRBrace]))))
    unfold validJSON
    rw [hsk, hg]
    have hb : chLBrace ≠ chQuote := by decide
    simp only [envelopeText, scanValue, hb, if_false, if_true] at hk ⊢
    rw [hk]
    rw [appendString_append] at hs1 ⊢
    simp only [hq, if_false, hs1, skipWS]
    rfl
  -- the members
  have hm2 := objectMembers_member ((envelopeText t d).length - 1) "data".toList d chRBrace []
    hv hw hlen (by decide)
  have hm1 := objectMembers_member ((envelopeText t d).length) "type".toList (appendString t)
    chComma (appendString "data".toList ++ chColon :: (d ++ [chRBrace])) a1 a2 a3 (by decide)
  rw [skipWS_appendString] at hm1
  simp only [hne, if_false, if_true] at hm1 hm2
  have hl : (envelopeText t d).length = (envelopeText t d).length - 1 + 1 := by
    simp [envelopeText]
  rw [hl, hm2] at hm1
  have hsk : skipWS (envelopeText t d) = envelopeText t d := skipWS_cons _ _ (by decide)
  have hk := skipWS_appendString "type".toList
    (chColon :: (appendString t ++ chComma ::
      (appendString "data".toList ++ chColon :: (d ++ [chRBrace]))))
  unfold structMembers
  rw [hvalid, hsk]
  rw [← hl] at hm1
  simp only [envelopeText, if_true] at hk hm1 ⊢
  rw [hk]
  rw [appendString_append] at hm1 ⊢
  simp only [hq, if_false, hm1]

theorem MarshalSendSmsPayload_eq (r : String) :
    MarshalSendSmsPayload { MessageId := r }
      = .ok (objectText1 "message_id".toList r.toList) := rfl

theorem MarshalKafkaPayload_objectText1 (typ : String) (k v : List Char) :
    MarshalKafkaPayload { Typ := typ, Data := objectText1 k v }
      = .ok (envelopeText typ.toList (objectText1 k v)) := by
  have hne : objectText1 k v ≠ [] := by simp [objectText1]
  simp only [MarshalKafkaPayload, hne, if_false, compact_objectText1, envelopeText]

theorem UnmarshalKafkaPayload_envelopeText (t d : List Char)
    (hv : ∀ f r, scanValue (f + 3) (d ++ r) = some r)
    (hw : ∀ r, skipWS (d ++ r) = d ++ r) (hlen : 2 ≤ d.length) :
    UnmarshalKafkaPayload (envelopeText t d) = .ok { Typ := String.mk t, Data := d } := by
  have h1 : keyMatches "type".toList "type".toList = true := by decide
  have h2 : keyMatches "type".toList "data".toList = false := by decide
  have h3 : keyMatches "data".toList "data".toList = true := by decide
  simp only [UnmarshalKafkaPayload, structMembers_envelopeText t d hv hw hlen,
    decodeKafkaFields, h1, h2, h3, if_true, Bool.false_eq_true, if_false,
    decodeStringField_appendString]

/-! ## The submit flow -/

/-- C1: if `InsertSMSRequest` returns an error, `SendSMSService` returns the
empty id with that error, `SendSmsController` answers 400, `Produce` is not
called, and neither the topic nor the table has changed: no envelope exists
for a request that was not persisted. -/
theorem submit_persist_error_publishes_nothing (env : Env) (req : SendSms) (w : World)
    (e : GoError)
    (hfail : (InsertSMSRequest env
      { RequestID := env.uuid, PhoneNumber := req.PhoneNumber, Message := req.Message } w).1
        = some e) :
    (SendSMSService env req w).1 = ("", some e) ∧
    (SendSmsController env (.ok req) w).1 = { code := 400, body := [("ERROR", .err e)] } ∧
    (∀ c ∈ callsDuring w (SendSmsController env (.ok req) w).2, c.isProduce = false) ∧
    (SendSmsController env (.ok req) w).2.topic = w.topic ∧
    (SendSmsController env (.ok req) w).2.sms_requests = w.sms_requests := by
  have hins : env.faults.insert = some e := by
    unfold InsertSMSRequest at hfail
    cases h : env.faults.insert <;> simp_all
  have hcalls : callsDuring w (SendSmsController env (.ok req) w).2
      = [Call.scyllaInsert env.uuid] := by
    apply callsDuring_append
    simp [SendSmsController, SendSMSService, InsertSMSRequest, hins]
  refine ⟨?_, ?_, ?_, ?_, ?_⟩
  · simp [SendSMSService, InsertSMSRequest, hins]
  · simp [SendSmsController, SendSMSService, InsertSMSRequest, hins]
  · rw [hcalls]
    simp [Call.isProduce]
  · simp [SendSmsController, SendSMSService, InsertSMSRequest, hins]
  · simp [SendSmsController, SendSMSService, InsertSMSRequest, hins]

/-- C1 at a concrete input: the insert fails on the empty world. -/
theorem submit_persist_error_publishes_nothing_witness :
    (InsertSMSRequest envInsertFails
      { RequestID := envInsertFails.uuid, PhoneNumber := reqHi.PhoneNumber,
        Message := reqHi.Message } w0).1 = some "gocql: no hosts available" ∧
    (SendSMSService envInsertFails reqHi w0).1 = ("", some "gocql: no hosts available") ∧
    (SendSmsController envInsertFails (.ok reqHi) w0).1
      = { code := 400, body := [("ERROR", .err "gocql: no hosts available")] } ∧
    (∀ c ∈ callsDuring w0 (SendSmsController envInsertFails (.ok reqHi) w0).2,
      c.isProduce = false) ∧
    (SendSmsController envInsertFails (.ok reqHi) w0).2.topic = w0.topic ∧
    (SendSmsController envInsertFails (.ok reqHi) w0).2.sms_requests = w0.sms_requests :=
  ⟨rfl, submit_persist_error_publishes_nothing envInsertFails reqHi w0 _ rfl⟩

/-! ## The dispatch worker and the blacklist -/

/-- C2, counterexample: the record of a blacklisted number is still `Pending`,
not `Blocked`, after `HandleKafkaMessages` has returned. -/
theorem blacklisted_record_not_blocked :
    cqlSelect "r-2" wBlack.sms_requests = some recBlack ∧
    recBlack.PhoneNumber ∈ wBlack.blacklisted_numbers_set ∧
    (cqlSelect "r-2" (HandleKafkaMessages envOk "r-2" wBlack).2.sms_requests).map
      SMSRequest.Status = some "Pending" ∧
    (cqlSelect "r-2" (HandleKafkaMessages envOk "r-2" wBlack).2.sms_requests).map
      SMSRequest.Status ≠ some "Blocked" := by
  decide

/-- C2, amended: for a request whose stored number is blacklisted,
`HandleKafkaMessages` returns nil and leaves the table as it was, so the stored
record, its status included, is the one stored before the call. -/
theorem blacklisted_record_unchanged (env : Env) (requestId : String) (w : World)
    (rec : SMSRequest) (hrec : cqlSelect requestId w.sms_requests = some rec)
    (hmem : rec.PhoneNumber ∈ w.blacklisted_numbers_set) :
    (HandleKafkaMessages env requestId w).1 = none ∧
    (HandleKafkaMessages env requestId w).2.sms_requests = w.sms_requests ∧
    cqlSelect requestId (HandleKafkaMessages env requestId w).2.sms_requests = some rec := by
  obtain ⟨d, hd, _⟩ := HandleKafkaMessages_blacklisted_any env requestId w rec hrec hmem
  simp [hd, hrec]

/-- C2 as amended, at a concrete input: the `Pending` request `r-2` whose number
is blacklisted. -/
theorem blacklisted_record_unchanged_witness :
    cqlSelect "r-2" wBlack.sms_requests = some recBlack ∧
    recBlack.PhoneNumber ∈ wBlack.blacklisted_numbers_set ∧
    (HandleKafkaMessages envOk "r-2" wBlack).1 = none ∧
    (HandleKafkaMessages envOk "r-2" wBlack).2.sms_requests = wBlack.sms_requests ∧
    cqlSelect "r-2" (HandleKafkaMessages envOk "r-2" wBlack).2.sms_requests = some recBlack :=
  ⟨by decide, by decide,
    blacklisted_record_unchanged envOk "r-2" wBlack recBlack (by decide) (by decide)⟩

/-- C3: for a request whose stored number is blacklisted, no call made during
`HandleKafkaMessages` is a `SendMessage`, whatever the drivers do. -/
theorem blacklisted_never_sent (env : Env) (requestId : String) (w : World)
    (rec : SMSRequest) (hrec : cqlSelect requestId w.sms_requests = some rec)
    (hmem : rec.PhoneNumber ∈ w.blacklisted_numbers_set) :
    ∀ c ∈ callsDuring w (HandleKafkaMessages env requestId w).2, c.isSend = false := by
  obtain ⟨d, hd, hno⟩ := HandleKafkaMessages_blacklisted_any env requestId w rec hrec hmem
  have hc : callsDuring w (HandleKafkaMessages env requestId w).2 = d :=
    callsDuring_append _ _ d (by simp [hd])
  intro c hcd
  rw [hc] at hcd
  exact (hno c hcd).1

/-- C3 at a concrete input: the `Pending` request `r-2` whose number is
blacklisted. -/
theorem blacklisted_never_sent_witness :
    cqlSelect "r-2" wBlack.sms_requests = some recBlack ∧
    recBlack.PhoneNumber ∈ wBlack.blacklisted_numbers_set ∧
    ∀ c ∈ callsDuring wBlack (HandleKafkaMessages envOk "r-2" wBlack).2, c.isSend = false :=
  ⟨by decide, by decide,
    blacklisted_never_sent envOk "r-2" wBlack recBlack (by decide) (by decide)⟩

/-- C4, at the failing input: a `Pending` request with a number that is not
blacklisted and no driver fault.  `HandleKafkaMessages` returns nil after the
calls select, sismember, `SendMessage`, update, and the stored status is still
`Pending`: the update wrote back the status it had read. -/
theorem pending_record_sent_but_still_pending :
    cqlSelect "r-1" wPending.sms_requests = some recPending ∧
    recPending.Status = "Pending" ∧
    recPending.PhoneNumber ∉ wPending.blacklisted_numbers_set ∧
    (HandleKafkaMessages envOk "r-1" wPending).1 = none ∧
    callsDuring wPending (HandleKafkaMessages envOk "r-1" wPending).2
      = [Call.scyllaSelect "r-1", Call.redisSIsMember "+15550001",
         Call.sendMessage recPending, Call.scyllaUpdate "r-1"] ∧
    (cqlSelect "r-1" (HandleKafkaMessages envOk "r-1" wPending).2.sms_requests).map
      SMSRequest.Status = some "Pending" := by
  decide

/-! ## Status writes and re-delivery -/

/-- C5, counterexample: the stored status is the terminal `Sent`, the update
carries `Failed`, and after `UpdateSMSDetailsInDB` the stored status is
`Failed`. -/
theorem terminal_status_overwritten :
    (cqlSelect "r-3" wSent.sms_requests).map SMSRequest.Status = some "Sent" ∧
    updFailed.ID = "r-3" ∧ updFailed.Status ≠ "Sent" ∧
    (UpdateSMSDetailsInDB envOk updFailed wSent).1 = none ∧
    (cqlSelect "r-3" (UpdateSMSDetailsInDB envOk updFailed wSent).2.sms_requests).map
      SMSRequest.Status = some "Failed" := by
  decide

/-- C5, amended: `UpdateSMSDetailsInDB` does not look at the stored status.
When the call returns nil the stored status of that id is the status of the
update (`"Success"` for an empty one), whatever was stored before; when the
call returns an error the table is as it was. -/
theorem update_overwrites_status (env : Env) (smsDetails : SMSRequest) (w : World) :
    ((UpdateSMSDetailsInDB env smsDetails w).1 = none →
      (cqlSelect smsDetails.ID (UpdateSMSDetailsInDB env smsDetails w).2.sms_requests).map
        SMSRequest.Status = some (boundStatus smsDetails)) ∧
    (∀ e, (UpdateSMSDetailsInDB env smsDetails w).1 = some e →
      (UpdateSMSDetailsInDB env smsDetails w).2.sms_requests = w.sms_requests) := by
  unfold UpdateSMSDetailsInDB
  cases hu : env.faults.update with
  | some err => simp
  | none => simp [cqlSelect_cqlUpdate_status, boundStatus]

/-- C5 as amended, at a concrete input: the update carrying `Failed` for the
stored `Sent` request `r-3`. -/
theorem update_overwrites_status_witness :
    (UpdateSMSDetailsInDB envOk updFailed wSent).1 = none ∧
    (cqlSelect updFailed.ID (UpdateSMSDetailsInDB envOk updFailed wSent).2.sms_requests).map
      SMSRequest.Status = some (boundStatus updFailed) :=
  ⟨by decide, (update_overwrites_status envOk updFailed wSent).1 (by decide)⟩

/-- C6, counterexample: the stored record is already `Sent` and its number is
not blacklisted; `HandleKafkaMessages` calls `SendMessage` again and writes to
the store. -/
theorem terminal_record_sent_again :
    cqlSelect "r-3" wSent.sms_requests = some recSent ∧
    isTerminal recSent.Status = true ∧
    callsDuring wSent (HandleKafkaMessages envOk "r-3" wSent).2
      = [Call.scyllaSelect "r-3", Call.redisSIsMember "+15550003",
         Call.sendMessage recSent, Call.scyllaUpdate "r-3"] ∧
    (∃ c ∈ callsDuring wSent (HandleKafkaMessages envOk "r-3" wSent).2, c.isSend = true) ∧
    (∃ c ∈ callsDuring wSent (HandleKafkaMessages envOk "r-3" wSent).2,
      c.isStoreWrite = true) ∧
    (HandleKafkaMessages envOk "r-3" wSent).2.sms_requests ≠ wSent.sms_requests := by
  decide

/-- C6, amended: re-delivery is not a no-op.  For a request whose stored
record has a terminal status, when the read and the blacklist check succeed and
the number is not blacklisted, `HandleKafkaMessages` calls `SendMessage` again,
issues an update for that id and returns the outcome of that update; it makes
no send and no store write, leaves the table as it was and returns nil exactly
in the other cases: the read fails, the blacklist check fails, or the number is
blacklisted. -/
theorem redelivery_sends_again (env : Env) (requestId : String) (w : World)
    (rec : SMSRequest) (hrec : cqlSelect requestId w.sms_requests = some rec)
    (_hterm : isTerminal rec.Status = true) :
    (env.faults.select = none → env.faults.sismember = none →
      rec.PhoneNumber ∉ w.blacklisted_numbers_set →
        callsDuring w (HandleKafkaMessages env requestId w).2
          = [Call.scyllaSelect requestId, Call.redisSIsMember rec.PhoneNumber,
             Call.sendMessage rec, Call.scyllaUpdate requestId] ∧
        (HandleKafkaMessages env requestId w).1 = env.faults.update) ∧
    (env.faults.select ≠ none ∨ env.faults.sismember ≠ none ∨
      rec.PhoneNumber ∈ w.blacklisted_numbers_set →
        (∀ c ∈ callsDuring w (HandleKafkaMessages env requestId w).2,
          c.isSend = false ∧ c.isStoreWrite = false) ∧
        (HandleKafkaMessages env requestId w).2.sms_requests = w.sms_requests ∧
        (HandleKafkaMessages env requestId w).1 = none) := by
  have hid : rec.ID = requestId := cqlSelect_ID requestId rec _ hrec
  refine ⟨?_, ?_⟩
  · intro hsel hchk hmem
    rw [HandleKafkaMessages_send env requestId w rec hsel hrec hchk hmem]
    constructor
    · apply callsDuring_append
      unfold UpdateSMSDetailsInDB
      cases hu : env.faults.update <;> simp [hid]
    · unfold UpdateSMSDetailsInDB
      cases hu : env.faults.update <;> simp
  · intro hstop
    obtain ⟨d, hd, hno⟩ := HandleKafkaMessages_stopped env requestId w rec hrec hstop
    have hc : callsDuring w (HandleKafkaMessages env requestId w).2 = d :=
      callsDuring_append _ _ d (by simp [hd])
    rw [hc]
    exact ⟨hno, by simp [hd], by simp [hd]⟩

/-- C6 as amended, at a concrete input: the stored `Sent` request `r-3`, number
not blacklisted. -/
theorem redelivery_sends_again_witness :
    cqlSelect "r-3" wSent.sms_requests = some recSent ∧
    isTerminal recSent.Status = true ∧
    callsDuring wSent (HandleKafkaMessages envOk "r-3" wSent).2
      = [Call.scyllaSelect "r-3", Call.redisSIsMember recSent.PhoneNumber,
         Call.sendMessage recSent, Call.scyllaUpdate "r-3"] ∧
    (HandleKafkaMessages envOk "r-3" wSent).1 = envOk.faults.update :=
  ⟨by decide, by decide,
    (redelivery_sends_again envOk "r-3" wSent recSent (by decide) (by decide)).1
      (by decide) (by decide) (by decide)⟩

/-! ## Reading back, the response, the envelope -/

/-- C7: when `SendSMSService` returns the id `r` without error, a
`GetSMSDetailsFromDB` for `r` on the resulting store (the driver answering)
returns the record with id `r`, the submitted phone number and message, and
status `Pending`. -/
theorem submitted_request_readable_pending (env env2 : Env) (req : SendSms) (w : World)
    (r : String) (hok : (SendSMSService env req w).1 = (r, none))
    (hread : env2.faults.select = none) :
    ∃ rec : SMSRequest,
      (GetSMSDetailsFromDB env2 r (SendSMSService env req w).2).1 = .ok rec ∧
      rec.ID = r ∧ rec.PhoneNumber = req.PhoneNumber ∧ rec.Message = req.Message ∧
      rec.Status = "Pending" := by
  unfold SendSMSService InsertSMSRequest at hok ⊢
  cases hi : env.faults.insert with
  | some err => simp [hi] at hok
  | none =>
    simp only [hi] at hok ⊢
    have hr : env.uuid = r := by simpa using hok
    subst hr
    refine ⟨{ ID := env.uuid, PhoneNumber := req.PhoneNumber, Message := req.Message,
              Status := "Pending", FailureCode := "", FailureComments := "",
              CreatedAt := env.now w.clockReads, UpdatedAt := env.now (w.clockReads + 1) },
            ?_, rfl, rfl, rfl, rfl⟩
    simp only [GetSMSDetailsFromDB, hread]
    have h := cqlSelect_cqlInsert
      { ID := env.uuid, PhoneNumber := req.PhoneNumber, Message := req.Message,
        Status := "Pending", FailureCode := "", FailureComments := "",
        CreatedAt := env.now w.clockReads, UpdatedAt := env.now (w.clockReads + 1) }
      w.sms_requests
    simp only at h
    simp [h]

/-- C7 at a concrete input: a submit on the empty world, then a read of `r-1`.
-/
theorem submitted_request_readable_pending_witness :
    (SendSMSService envOk reqHi w0).1 = ("r-1", none) ∧ envOk.faults.select = none ∧
    ∃ rec : SMSRequest,
      (GetSMSDetailsFromDB envOk "r-1" (SendSMSService envOk reqHi w0).2).1 = .ok rec ∧
      rec.ID = "r-1" ∧ rec.PhoneNumber = reqHi.PhoneNumber ∧ rec.Message = reqHi.Message ∧
      rec.Status = "Pending" :=
  ⟨by decide, by decide,
    submitted_request_readable_pending envOk envOk reqHi w0 "r-1" (by decide) (by decide)⟩

/-- C8, counterexample: the insert succeeds, `SendSMSService` returns the id
`r-1`, the producer rejects the message, and the response is the 500 body
without any request id. -/
theorem publish_failure_hides_request_id :
    (SendSMSService envProduceFails reqHi w0).1 = ("r-1", none) ∧
    (SendSmsController envProduceFails (.ok reqHi) w0).1
      = { code := 500, body := [("error", .str "Failed to process request")] } ∧
    (SendSmsController envProduceFails (.ok reqHi) w0).1.carriesRequestId "r-1" = false ∧
    (cqlSelect "r-1" (SendSmsController envProduceFails (.ok reqHi) w0).2.sms_requests).map
      SMSRequest.Status = some "Pending" := by
  decide

/-- C8, amended: once `SendSMSService` has returned the id `r`, the response
carries `r` (status 200) when `Produce` returns nil; when `Produce` returns an
error, or the Kafka DAO is nil, the response is the 500 body
`error: Failed to process request`, which carries no request id. -/
theorem response_carries_id_iff_published (env : Env) (req : SendSms) (w : World)
    (r : String) (bytes : List Char) (hok : (SendSMSService env req w).1 = (r, none))
    (hbytes : MarshalSendSmsPayload { MessageId := r } = .ok bytes) :
    (env.kafkaDao = true →
      (Produce env { Typ := "SMS_REQUEST", Data := bytes } (SendSMSService env req w).2).1 = none →
        (SendSmsController env (.ok req) w).1
          = { code := 200, body := [("request_id", .str r),
                                    ("message", .str "message sent successfully!")] } ∧
        (SendSmsController env (.ok req) w).1.carriesRequestId r = true) ∧
    (env.kafkaDao = false ∨
      (∃ e, (Produce env { Typ := "SMS_REQUEST", Data := bytes }
        (SendSMSService env req w).2).1 = some e) →
        (SendSmsController env (.ok req) w).1
          = { code := 500, body := [("error", .str "Failed to process request")] } ∧
        (SendSmsController env (.ok req) w).1.carriesRequestId r = false) := by
  have hs : SendSMSService env req w = ((r, none), (SendSMSService env req w).2) :=
    Prod.ext hok rfl
  generalize (SendSMSService env req w).2 = w1 at hs ⊢
  simp only [SendSmsController, hs, hbytes]
  constructor
  · intro hk hp
    generalize Produce env { Typ := "SMS_REQUEST", Data := bytes } w1 = pres at hp ⊢
    obtain ⟨perr, w2⟩ := pres
    simp only at hp
    subst hp
    simp [hk, Response.carriesRequestId]
  · rintro (hk | ⟨e, hp⟩)
    · simp [hk, Response.carriesRequestId]
    · generalize Produce env { Typ := "SMS_REQUEST", Data := bytes } w1 = pres at hp ⊢
      obtain ⟨perr, w2⟩ := pres
      simp only at hp
      subst hp
      cases hk : env.kafkaDao <;> simp [Response.carriesRequestId]

/-- C8 as amended, at a concrete input: insert and publish both succeed. -/
theorem response_carries_id_iff_published_witness :
    (SendSMSService envOk reqHi w0).1 = ("r-1", none) ∧
    (SendSmsController envOk (.ok reqHi) w0).1
      = { code := 200, body := [("request_id", .str "r-1"),
                                ("message", .str "message sent successfully!")] } ∧
    (SendSmsController envOk (.ok reqHi) w0).1.carriesRequestId "r-1" = true :=
  ⟨by decide,
    (response_carries_id_iff_published envOk reqHi w0 "r-1" _ (by decide) rfl).1
      (by decide) (by decide)⟩

/-- C9: for every request id `r`, marshalling `SendSmsPayload{MessageId: r}`
and then the envelope `KafkaPayload{Type: "SMS_REQUEST", Data: ...}` succeeds;
the bytes decode to the same envelope and the data to the same payload; one
iteration of the `Consume` loop on these bytes takes the `SMS_REQUEST` branch
and does exactly what `HandleKafkaMessages` does for `r` (on a nil service
instance that call panics and the loop is left); and these are the bytes a
successful `SendSmsController` appends to the topic. -/
theorem envelope_round_trip (r : String) :
    ∃ data bytes : List Char,
      MarshalSendSmsPayload { MessageId := r } = .ok data ∧
      MarshalKafkaPayload { Typ := "SMS_REQUEST", Data := data } = .ok bytes ∧
      UnmarshalKafkaPayload bytes = .ok { Typ := "SMS_REQUEST", Data := data } ∧
      UnmarshalSendSmsPayload data = .ok { MessageId := r } ∧
      (∀ (env : Env) (w : World),
        ConsumeIteration ServiceInstance.ready env (.ok bytes) w
          = (LoopCtl.next, (HandleKafkaMessages env r w).2)) ∧
      (∀ (env : Env) (w : World),
        ConsumeIteration ServiceInstance.nil env (.ok bytes) w = (LoopCtl.stop, w)) ∧
      (∀ (env : Env) (req : SendSms) (w : World), env.uuid = r →
        (SendSmsController env (.ok req) w).1.code = 200 →
          (SendSmsController env (.ok req) w).2.topic = w.topic ++ [bytes]) := by
  obtain ⟨h1, h2, h3⟩ := objectText1_scans "message_id".toList r.toList
  have hm := MarshalKafkaPayload_objectText1 "SMS_REQUEST" "message_id".toList r.toList
  have hu := UnmarshalKafkaPayload_envelopeText "SMS_REQUEST".toList
    (objectText1 "message_id".toList r.toList) h1 h2 h3
  have hd := UnmarshalSendSmsPayload_objectText1 r.toList
  have hs : String.mk r.toList = r := rfl
  have ht : String.mk "SMS_REQUEST".toList = "SMS_REQUEST" := rfl
  rw [hs] at hd
  rw [ht] at hu
  refine ⟨objectText1 "message_id".toList r.toList,
    envelopeText "SMS_REQUEST".toList (objectText1 "message_id".toList r.toList),
    rfl, hm, hu, hd, ?_, ?_, ?_⟩
  · intro env w
    simp only [ConsumeIteration, hu, hd, if_true]
    generalize HandleKafkaMessages env r w = res
    rcases res with ⟨_ | err, w1⟩ <;> rfl
  · intro env w
    simp only [ConsumeIteration, hu, hd, if_true]
  · intro env req w hr hcode
    subst hr
    cases hi : env.faults.insert <;> cases hk : env.kafkaDao <;>
      cases hp : env.faults.produce <;>
      simp_all [SendSmsController, SendSMSService, InsertSMSRequest, Produce,
        MarshalSendSmsPayload_eq]

/-- C9 at a concrete input: the request id `r-1`, whose published bytes are
`wireR1`. -/
theorem envelope_round_trip_witness :
    (SendSmsController envOk (.ok reqHi) w0).1.code = 200 ∧
    (SendSmsController envOk (.ok reqHi) w0).2.topic = [wireR1] ∧
    ∃ data bytes : List Char,
      MarshalSendSmsPayload { MessageId := "r-1" } = .ok data ∧
      MarshalKafkaPayload { Typ := "SMS_REQUEST", Data := data } = .ok bytes ∧
      UnmarshalKafkaPayload bytes = .ok { Typ := "SMS_REQUEST", Data := data } ∧
      UnmarshalSendSmsPayload data = .ok { MessageId := "r-1" } ∧
      (∀ (env : Env) (w : World),
        ConsumeIteration ServiceInstance.ready env (.ok bytes) w
          = (LoopCtl.next, (HandleKafkaMessages env "r-1" w).2)) ∧
      (∀ (env : Env) (w : World),
        ConsumeIteration ServiceInstance.nil env (.ok bytes) w = (LoopCtl.stop, w)) ∧
      (∀ (env : Env) (req : SendSms) (w : World), env.uuid = "r-1" →
        (SendSmsController env (.ok req) w).1.code = 200 →
          (SendSmsController env (.ok req) w).2.topic = w.topic ++ [bytes]) :=
  ⟨by decide, by decide, envelope_round_trip "r-1"⟩

/-- C10: when the store read fails (a driver error, or no row with that id),
`HandleKafkaMessages` returns nil having made the select and no other call: it
does not read the blacklist, does not call `SendMessage`, does not write to
the store, and table, blacklist and topic are as before. -/
theorem read_failure_skips_message (env : Env) (requestId : String) (w : World) (e : GoError)
    (hread : (GetSMSDetailsFromDB env requestId w).1 = .error e) :
    (HandleKafkaMessages env requestId w).1 = none ∧
    callsDuring w (HandleKafkaMessages env requestId w).2 = [Call.scyllaSelect requestId] ∧
    (∀ c ∈ callsDuring w (HandleKafkaMessages env requestId w).2,
      c.isBlacklistRead = false ∧ c.isSend = false ∧ c.isStoreWrite = false) ∧
    (HandleKafkaMessages env requestId w).2.sms_requests = w.sms_requests ∧
    (HandleKafkaMessages env requestId w).2.blacklisted_numbers_set
      = w.blacklisted_numbers_set ∧
    (HandleKafkaMessages env requestId w).2.topic = w.topic := by
  have h := HandleKafkaMessages_read_error env requestId w e hread
  have hc : callsDuring w (HandleKafkaMessages env requestId w).2
      = [Call.scyllaSelect requestId] := callsDuring_append _ _ _ (by simp [h])
  refine ⟨by simp [h], hc, ?_, by simp [h], by simp [h], by simp [h]⟩
  rw [hc]
  simp [Call.isBlacklistRead, Call.isSend, Call.isStoreWrite]

/-- C10 at a concrete input: no row has the id `r-9`. -/
theorem read_failure_skips_message_witness :
    (GetSMSDetailsFromDB envOk "r-9" wPending).1 = .error ErrNotFound ∧
    (HandleKafkaMessages envOk "r-9" wPending).1 = none ∧
    callsDuring wPending (HandleKafkaMessages envOk "r-9" wPending).2
      = [Call.scyllaSelect "r-9"] ∧
    (∀ c ∈ callsDuring wPending (HandleKafkaMessages envOk "r-9" wPending).2,
      c.isBlacklistRead = false ∧ c.isSend = false ∧ c.isStoreWrite = false) ∧
    (HandleKafkaMessages envOk "r-9" wPending).2.sms_requests = wPending.sms_requests ∧
    (HandleKafkaMessages envOk "r-9" wPending).2.blacklisted_numbers_set
      = wPending.blacklisted_numbers_set ∧
    (HandleKafkaMessages envOk "r-9" wPending).2.topic = wPending.topic :=
  ⟨rfl, read_failure_skips_message envOk "r-9" wPending ErrNotFound rfl⟩

/-! ## The consumer loop -/

/-- C11: for every message value that decodes to an envelope whose type is not
`SMS_REQUEST`, one iteration of the `Consume` loop hands control to the next
pull and leaves the world as it was, whatever service instance the loop holds:
no call is made (so `HandleKafkaMessages`, which starts with a select, is not
called), and table, blacklist and topic are untouched. -/
theorem unknown_type_skipped (serviceInstance : ServiceInstance) (env : Env)
    (value : List Char) (payload : KafkaPayload)
    (w : World) (hdec : UnmarshalKafkaPayload value = .ok payload)
    (htype : payload.Typ ≠ "SMS_REQUEST") :
    ConsumeIteration serviceInstance env (.ok value) w = (LoopCtl.next, w) ∧
    callsDuring w (ConsumeIteration serviceInstance env (.ok value) w).2 = [] ∧
    (ConsumeIteration serviceInstance env (.ok value) w).2.sms_requests = w.sms_requests ∧
    (ConsumeIteration serviceInstance env (.ok value) w).2.blacklisted_numbers_set
      = w.blacklisted_numbers_set := by
  have h : ConsumeIteration serviceInstance env (.ok value) w = (LoopCtl.next, w) := by
    simp [ConsumeIteration, hdec, htype]
  simp [h, callsDuring]

/-- C11 at a concrete input: an `EMAIL_REQUEST` envelope met with the `Pending`
request `r-1` in the store. -/
theorem unknown_type_skipped_witness :
    UnmarshalKafkaPayload wireEmail = .ok { Typ := "EMAIL_REQUEST", Data := dataR1 } ∧
    ConsumeIteration ServiceInstance.ready envOk (.ok wireEmail) wPending
      = (LoopCtl.next, wPending) ∧
    callsDuring wPending
      (ConsumeIteration ServiceInstance.ready envOk (.ok wireEmail) wPending).2 = [] ∧
    (ConsumeIteration ServiceInstance.ready envOk (.ok wireEmail) wPending).2.sms_requests
      = wPending.sms_requests ∧
    (ConsumeIteration ServiceInstance.ready envOk
      (.ok wireEmail) wPending).2.blacklisted_numbers_set
      = wPending.blacklisted_numbers_set :=
  ⟨rfl, unknown_type_skipped ServiceInstance.ready envOk wireEmail
    { Typ := "EMAIL_REQUEST", Data := dataR1 } wPending rfl (by decide)⟩

/-- With the service instance initialised, every iteration of the `Consume`
loop hands control to the next pull, whatever the pull returns, however the
two decodings end and whatever `HandleKafkaMessages` returns; the loop run on
any sequence of pull outcomes does not stop. -/
theorem Consume_ready_continues (env : Env) (pull : Except GoError (List Char))
    (pulls : List (Except GoError (List Char))) (w : World) :
    (ConsumeIteration ServiceInstance.ready env pull w).1 = LoopCtl.next ∧
    (Consume ServiceInstance.ready env pulls w).1 = LoopCtl.next := by
  have hstep : ∀ (p : Except GoError (List Char)) (v : World),
      (ConsumeIteration ServiceInstance.ready env p v).1 = LoopCtl.next := by
    intro p v
    unfold ConsumeIteration
    split
    · rfl
    · split
      · rfl
      · split
        · split
          · rfl
          · dsimp only
            split <;> rfl
        · rfl
  refine ⟨hstep pull w, ?_⟩
  induction pulls generalizing w with
  | nil => rfl
  | cons p ps ih =>
    have hp := hstep p w
    unfold Consume
    generalize ConsumeIteration ServiceInstance.ready env p w = res at hp
    obtain ⟨ctl, w1⟩ := res
    simp only at hp
    subst hp
    exact ih w1

/-- An iteration of the `Consume` loop leaves the loop only in one case: the
service instance is nil and the message decodes to an `SMS_REQUEST` envelope
with decodable data.  Pull errors, decoding errors and unknown types hand
control to the next pull even then. -/
theorem ConsumeIteration_stop (serviceInstance : ServiceInstance) (env : Env)
    (pull : Except GoError (List Char)) (w : World)
    (hstop : (ConsumeIteration serviceInstance env pull w).1 = LoopCtl.stop) :
    serviceInstance = ServiceInstance.nil ∧
    ∃ value data p, pull = .ok value ∧
      UnmarshalKafkaPayload value = .ok { Typ := "SMS_REQUEST", Data := data } ∧
      UnmarshalSendSmsPayload data = .ok p := by
  cases serviceInstance with
  | ready =>
    have h := (Consume_ready_continues env pull [] w).1
    rw [h] at hstop
    exact absurd hstop (by decide)
  | nil =>
    refine ⟨rfl, ?_⟩
    have hne : LoopCtl.next ≠ LoopCtl.stop := by decide
    unfold ConsumeIteration at hstop
    cases pull with
    | error e => exact absurd hstop hne
    | ok value =>
      cases hu : UnmarshalKafkaPayload value with
      | error e =>
        simp only [hu] at hstop
        exact absurd hstop hne
      | ok payload =>
        simp only [hu] at hstop
        by_cases ht : payload.Typ = "SMS_REQUEST"
        · cases hd : UnmarshalSendSmsPayload payload.Data with
          | error e =>
            simp only [ht, hd, if_true] at hstop
            exact absurd hstop hne
          | ok p =>
            refine ⟨value, payload.Data, p, rfl, ?_, hd⟩
            rw [hu, ← ht]
        · simp only [ht, if_false] at hstop
          exact absurd hstop hne

/-- C12, at the failing input: the goroutine of `Consume` has read the service
instance before `InitNotificationService` ran, so the loop holds a nil
pointer, and the message pulled is the well-formed `SMS_REQUEST` envelope for
`r-1`.  The iteration does not hand control to the next pull: the call of
`HandleKafkaMessages` panics and the loop is left, with the messages behind it
unread; with the instance initialised the same message is handled and the loop
goes on. -/
theorem nil_service_instance_leaves_loop :
    UnmarshalKafkaPayload wireR1 = .ok { Typ := "SMS_REQUEST", Data := dataR1 } ∧
    UnmarshalSendSmsPayload dataR1 = .ok { MessageId := "r-1" } ∧
    ConsumeIteration ServiceInstance.nil envOk (.ok wireR1) wPending
      = (LoopCtl.stop, wPending) ∧
    Consume ServiceInstance.nil envOk [.ok wireR1, .ok wireR1] wPending
      = (LoopCtl.stop, wPending) ∧
    (ConsumeIteration ServiceInstance.ready envOk (.ok wireR1) wPending).1 = LoopCtl.next :=
  ⟨rfl, rfl, by decide, by decide, by decide⟩

/-! ## The blacklist -/

theorem filter_eq_length_pos (n : String) (l : List String) :
    0 < (l.filter (fun m => m = n)).length ↔ n ∈ l := by
  induction l with
  | nil => simp
  | cons a as ih =>
    by_cases h : a = n
    · simp [h]
    · have h2 : ¬ n = a := fun e => h e.symm
      simp [List.filter_cons, h, h2, ih]

/-- C13: when the cache call succeeds, `RemoveFromBlacklistService` returns no
error, and returns `true` exactly when the number was a member of the set
before the call (so `(false, nil)` for an absent number). -/
theorem remove_reports_membership (env : Env) (number : String) (w : World)
    (hcache : (RemoveFromBlacklistedSet env number w).1.2 = none) :
    (RemoveFromBlacklistService env number w).1.2 = none ∧
    ((RemoveFromBlacklistService env number w).1.1 = true
      ↔ number ∈ w.blacklisted_numbers_set) ∧
    (number ∉ w.blacklisted_numbers_set →
      (RemoveFromBlacklistService env number w).1 = (false, none)) := by
  have hf : env.faults.srem = none := by
    unfold RemoveFromBlacklistedSet at hcache
    cases h : env.faults.srem <;> simp_all
  have hiff := filter_eq_length_pos number w.blacklisted_numbers_set
  refine ⟨?_, ?_, ?_⟩
  · simp [RemoveFromBlacklistService, RemoveFromBlacklistedSet, hf]
  · simp only [RemoveFromBlacklistService, RemoveFromBlacklistedSet, hf]
    simpa using hiff
  · intro hn
    have h0 : ¬ 0 < (w.blacklisted_numbers_set.filter (fun m => m = number)).length :=
      fun h => hn (hiff.mp h)
    simp only [RemoveFromBlacklistService, RemoveFromBlacklistedSet, hf]
    simpa using h0

/-- C13 at a concrete input: the blacklisted number of `wBlack` is removed, a
number that is absent is not. -/
theorem remove_reports_membership_witness :
    (RemoveFromBlacklistedSet envOk "+15550002" wBlack).1.2 = none ∧
    (RemoveFromBlacklistService envOk "+15550002" wBlack).1 = (true, none) ∧
    (RemoveFromBlacklistService envOk "+15550009" wBlack).1 = (false, none) :=
  ⟨by decide, by decide,
    (remove_reports_membership envOk "+15550009" wBlack (by decide)).2.2 (by decide)⟩

/-- C14: with the cache answering, after a successful
`AddNumberToBlacklistedSet(n)` the call `CheckNumberInBlacklistedSet(n)` returns
`true`; after a subsequent `RemoveFromBlacklistedSet(n)` it returns `false`; and
the latter holds after a remove on any set. -/
theorem blacklist_add_check_remove_check (env : Env) (n : String) (w : World)
    (hadd : (AddNumberToBlacklistedSet env n w).1 = none)
    (hchk : env.faults.sismember = none)
    (hrem : env.faults.srem = none) :
    (CheckNumberInBlacklistedSet env n (AddNumberToBlacklistedSet env n w).2).1 = .ok true ∧
    (CheckNumberInBlacklistedSet env n
      (RemoveFromBlacklistedSet env n
        (CheckNumberInBlacklistedSet env n (AddNumberToBlacklistedSet env n w).2).2).2).1
      = .ok false ∧
    (∀ v, (CheckNumberInBlacklistedSet env n (RemoveFromBlacklistedSet env n v).2).1
      = .ok false) := by
  have ha : env.faults.sadd = none := by
    unfold AddNumberToBlacklistedSet at hadd
    cases h : env.faults.sadd <;> simp_all
  have hr := hrem
  have hgen : ∀ v, (CheckNumberInBlacklistedSet env n (RemoveFromBlacklistedSet env n v).2).1
      = .ok false := by
    intro v
    simp [CheckNumberInBlacklistedSet, RemoveFromBlacklistedSet, hchk, hr]
  refine ⟨?_, hgen _, hgen⟩
  by_cases hm : n ∈ w.blacklisted_numbers_set <;>
    simp [CheckNumberInBlacklistedSet, AddNumberToBlacklistedSet, hchk, ha, hm]

/-- C14 at a concrete input: the number `+15550007` on the world `wBlack`. -/
theorem blacklist_add_check_remove_check_witness :
    (AddNumberToBlacklistedSet envOk "+15550007" wBlack).1 = none ∧
    (CheckNumberInBlacklistedSet envOk "+15550007"
      (AddNumberToBlacklistedSet envOk "+15550007" wBlack).2).1 = .ok true ∧
    (CheckNumberInBlacklistedSet envOk "+15550007"
      (RemoveFromBlacklistedSet envOk "+15550007"
        (CheckNumberInBlacklistedSet envOk "+15550007"
          (AddNumberToBlacklistedSet envOk "+15550007" wBlack).2).2).2).1 = .ok false :=
  ⟨by decide,
    (blacklist_add_check_remove_check envOk "+15550007" wBlack (by decide) (by decide)
      (by decide)).1,
    (blacklist_add_check_remove_check envOk "+15550007" wBlack (by decide) (by decide)
      (by decide)).2.1⟩

/-! ## The partial update -/

theorem cqlSelect_cqlUpdate_ne (id other st fc fm : String) (now : Time)
    (t : List SMSRequest) (h : other ≠ id) :
    cqlSelect other (cqlUpdate id st fc fm now t) = cqlSelect other t := by
  induction t with
  | nil =>
    have h2 : ¬ id = other := fun e => h e.symm
    simp [cqlUpdate, cqlSelect, h2]
  | cons r rs ih =>
    unfold cqlUpdate
    split
    · next hr =>
      have h2 : ¬ id = other := fun e => h e.symm
      simp [cqlSelect, hr, h2]
    · next hr =>
      by_cases h3 : r.ID = other
      · simp [cqlSelect, h3]
      · simp [cqlSelect, h3, ih]

theorem cqlUpdate_length (id st fc fm : String) (now : Time) (rec : SMSRequest)
    (t : List SMSRequest) (h : cqlSelect id t = some rec) :
    (cqlUpdate id st fc fm now t).length = t.length := by
  induction t with
  | nil => simp [cqlSelect] at h
  | cons r rs ih =>
    unfold cqlSelect at h
    unfold cqlUpdate
    split at h
    · next hr => simp [hr]
    · next hr => simp [hr, ih h]

/-- C15: `UpdateSMSDetailsInDB` is a partial update.  For a stored record and
an update argument with its id, whatever the driver does, the record stored
under that id afterwards has the same id, phone number, message and
`created_at`, and the record stored under every other id is the one stored
before. -/
theorem update_keeps_payload_and_other_rows (env : Env) (smsDetails rec : SMSRequest)
    (w : World) (hrec : cqlSelect smsDetails.ID w.sms_requests = some rec) :
    (∃ rec2 : SMSRequest,
      cqlSelect smsDetails.ID (UpdateSMSDetailsInDB env smsDetails w).2.sms_requests
        = some rec2 ∧
      rec2.ID = rec.ID ∧ rec2.PhoneNumber = rec.PhoneNumber ∧ rec2.Message = rec.Message ∧
      rec2.CreatedAt = rec.CreatedAt) ∧
    (∀ other : String, other ≠ smsDetails.ID →
      cqlSelect other (UpdateSMSDetailsInDB env smsDetails w).2.sms_requests
        = cqlSelect other w.sms_requests) ∧
    (UpdateSMSDetailsInDB env smsDetails w).2.sms_requests.length = w.sms_requests.length := by
  unfold UpdateSMSDetailsInDB
  cases hu : env.faults.update with
  | some err => exact ⟨⟨rec, hrec, rfl, rfl, rfl, rfl⟩, fun _ _ => rfl, rfl⟩
  | none =>
    refine ⟨⟨_, cqlSelect_cqlUpdate _ _ _ _ _ rec _ hrec, rfl, rfl, rfl, rfl⟩, ?_, ?_⟩
    · intro other hne
      exact cqlSelect_cqlUpdate_ne _ _ _ _ _ _ _ hne
    · exact cqlUpdate_length _ _ _ _ _ rec _ hrec

/-- C15 at a concrete input: the update carrying `Failed` for the stored request
`r-3`. -/
theorem update_keeps_payload_and_other_rows_witness :
    cqlSelect updFailed.ID wSent.sms_requests = some recSent ∧
    (∃ rec2 : SMSRequest,
      cqlSelect updFailed.ID (UpdateSMSDetailsInDB envOk updFailed wSent).2.sms_requests
        = some rec2 ∧
      rec2.ID = recSent.ID ∧ rec2.PhoneNumber = recSent.PhoneNumber ∧
      rec2.Message = recSent.Message ∧ rec2.CreatedAt = recSent.CreatedAt) :=
  ⟨by decide,
    (update_keeps_payload_and_other_rows envOk updFailed recSent wSent (by decide)).1⟩

/-! ## What the two writing functions store -/

theorem cqlInsert_rows (row : SMSRequest) (t : List SMSRequest) (P : SMSRequest → Prop)
    (hrow : P row) (ht : ∀ r ∈ t, P r) : ∀ r ∈ cqlInsert row t, P r := by
  induction t with
  | nil => simpa [cqlInsert] using hrow
  | cons a as ih =>
    have ha : P a := ht a (List.mem_cons_self _ _)
    have has : ∀ r ∈ as, P r := fun r hr => ht r (List.mem_cons_of_mem _ hr)
    unfold cqlInsert
    split
    · intro r hr
      rcases List.mem_cons.mp hr with h | h
      · exact h ▸ hrow
      · exact has r h
    · intro r hr
      rcases List.mem_cons.mp hr with h | h
      · exact h ▸ ha
      · exact ih has r h

theorem cqlUpdate_rows (id st fc fm : String) (now : Time) (t : List SMSRequest)
    (P : SMSRequest → Prop)
    (hnew : ∀ r : SMSRequest, r.Status = st → r.FailureCode = fc →
      r.FailureComments = fm → P r)
    (ht : ∀ r ∈ t, P r) : ∀ r ∈ cqlUpdate id st fc fm now t, P r := by
  induction t with
  | nil =>
    intro r hr
    simp only [cqlUpdate, List.mem_singleton] at hr
    subst hr
    exact hnew _ rfl rfl rfl
  | cons a as ih =>
    have ha : P a := ht a (List.mem_cons_self _ _)
    have has : ∀ r ∈ as, P r := fun r hr => ht r (List.mem_cons_of_mem _ hr)
    unfold cqlUpdate
    split
    · intro r hr
      rcases List.mem_cons.mp hr with h | h
      · subst h
        exact hnew _ rfl rfl rfl
      · exact has r h
    · intro r hr
      rcases List.mem_cons.mp hr with h | h
      · exact h ▸ ha
      · exact ih has r h

/-- C16, counterexample: after the insert of `r-1` and an update that writes the
record back, a reachable store holds `r-1` with status `Pending` and with the
non-empty failure code and failure comment `null`. -/
theorem failure_fields_populated_while_pending :
    Reachable wWrittenBack ∧
    cqlSelect "r-1" wWrittenBack.sms_requests
      = some { ID := "r-1", PhoneNumber := "+15550001", Message := "hi", Status := "Pending",
               FailureCode := "null", FailureComments := "null", CreatedAt := 100,
               UpdatedAt := 102 } ∧
    "null" ≠ "" ∧ "Pending" ≠ "Failed" :=
  ⟨Reachable.update envOk recPending _ (Reachable.insert envOk smsHi w0 (Reachable.empty w0 rfl)),
    by decide, by decide, by decide⟩

theorem cqlSelect_cqlUpdate_fields (id st fc fm : String) (now : Time)
    (t : List SMSRequest) :
    ∃ row : SMSRequest, cqlSelect id (cqlUpdate id st fc fm now t) = some row ∧
      row.Status = st ∧ row.FailureCode = fc ∧ row.FailureComments = fm := by
  induction t with
  | nil =>
    refine ⟨{ ID := id, PhoneNumber := "", Message := "", Status := st, FailureCode := fc,
              FailureComments := fm, CreatedAt := 0, UpdatedAt := now }, ?_, rfl, rfl, rfl⟩
    simp [cqlUpdate, cqlSelect]
  | cons r rs ih =>
    unfold cqlUpdate
    split
    · next hr =>
      refine ⟨{ r with Status := st, FailureCode := fc, FailureComments := fm,
                       UpdatedAt := now }, ?_, rfl, rfl, rfl⟩
      simp [cqlSelect, hr]
    · next hr =>
      obtain ⟨row, h, h1, h2, h3⟩ := ih
      exact ⟨row, by simp [cqlSelect, hr, h], h1, h2, h3⟩

/-- C16, amended: in every store state reachable through `InsertSMSRequest` and
`UpdateSMSDetailsInDB`, every record is either as inserted (status `Pending`,
failure code and failure comment empty) or as updated, and then its failure
code and failure comment are both non-empty whatever its status.  A successful
`InsertSMSRequest` stores, under its id, the status `Pending` with both fields
empty; a successful `UpdateSMSDetailsInDB` stores, under its id, the failure
code and the failure comment its argument carries, each replaced by `null` when
it is empty, with the status its argument carries (`Success` when empty). -/
theorem failure_fields_follow_last_write (w : World) (env : Env) (sms : AddSmsEntryInDb)
    (smsDetails : SMSRequest) :
    (Reachable w → ∀ row ∈ w.sms_requests, row.asInserted ∨ row.asUpdated) ∧
    ((InsertSMSRequest env sms w).1 = none →
      ∃ row : SMSRequest,
        cqlSelect sms.RequestID (InsertSMSRequest env sms w).2.sms_requests = some row ∧
        row.Status = "Pending" ∧ row.FailureCode = "" ∧ row.FailureComments = "") ∧
    ((UpdateSMSDetailsInDB env smsDetails w).1 = none →
      ∃ row : SMSRequest,
        cqlSelect smsDetails.ID (UpdateSMSDetailsInDB env smsDetails w).2.sms_requests
          = some row ∧
        row.Status = (if smsDetails.Status = "" then "Success" else smsDetails.Status) ∧
        row.FailureCode
          = (if smsDetails.FailureCode = "" then "null" else smsDetails.FailureCode) ∧
        row.FailureComments
          = (if smsDetails.FailureComments = "" then "null"
              else smsDetails.FailureComments)) := by
  refine ⟨?_, ?_, ?_⟩
  · intro hreach
    induction hreach with
    | empty w h => simp [h]
    | insert env sms w _ ih =>
      unfold InsertSMSRequest
      cases hi : env.faults.insert with
      | some err => exact ih
      | none =>
        exact cqlInsert_rows _ _ _ (Or.inl ⟨rfl, rfl, rfl⟩) ih
    | update env smsDetails w _ ih =>
      unfold UpdateSMSDetailsInDB
      cases hu : env.faults.update with
      | some err => exact ih
      | none =>
        refine cqlUpdate_rows _ _ _ _ _ _ _ (fun r h1 h2 h3 => Or.inr ⟨?_, ?_, ?_⟩) ih
        · rw [h1]
          split
          · decide
          · assumption
        · rw [h2]
          split
          · decide
          · assumption
        · rw [h3]
          split
          · decide
          · assumption
  · unfold InsertSMSRequest
    cases hi : env.faults.insert with
    | some err => simp
    | none =>
      intro _
      have h := cqlSelect_cqlInsert
        { ID := sms.RequestID, PhoneNumber := sms.PhoneNumber, Message := sms.Message,
          Status := "Pending", FailureCode := "", FailureComments := "",
          CreatedAt := env.now w.clockReads, UpdatedAt := env.now (w.clockReads + 1) }
        w.sms_requests
      simp only at h
      exact ⟨_, h, rfl, rfl, rfl⟩
  · unfold UpdateSMSDetailsInDB
    cases hu : env.faults.update with
    | some err => simp
    | none =>
      intro _
      exact cqlSelect_cqlUpdate_fields _ _ _ _ _ _

/-- C16 as amended, at a concrete input: the store after the insert of `r-1` and
the write-back is reachable; the insert of `r-1` on the empty world; the update
carrying the failure code `E42` on the world `wSent`. -/
theorem failure_fields_follow_last_write_witness :
    Reachable wWrittenBack ∧
    (∀ row ∈ wWrittenBack.sms_requests, row.asInserted ∨ row.asUpdated) ∧
    (InsertSMSRequest envOk smsHi w0).1 = none ∧
    (∃ row : SMSRequest,
      cqlSelect smsHi.RequestID (InsertSMSRequest envOk smsHi w0).2.sms_requests = some row ∧
      row.Status = "Pending" ∧ row.FailureCode = "" ∧ row.FailureComments = "") ∧
    (UpdateSMSDetailsInDB envOk updFailed wSent).1 = none ∧
    (∃ row : SMSRequest,
      cqlSelect updFailed.ID (UpdateSMSDetailsInDB envOk updFailed wSent).2.sms_requests
        = some row ∧
      row.Status = (if updFailed.Status = "" then "Success" else updFailed.Status) ∧
      row.FailureCode
        = (if updFailed.FailureCode = "" then "null" else updFailed.FailureCode) ∧
      row.FailureComments
        = (if updFailed.FailureComments = "" then "null" else updFailed.FailureComments)) :=
  ⟨Reachable.update envOk recPending _ (Reachable.insert envOk smsHi w0 (Reachable.empty w0 rfl)),
    (failure_fields_follow_last_write wWrittenBack envOk smsHi updFailed).1
      (Reachable.update envOk recPending _
        (Reachable.insert envOk smsHi w0 (Reachable.empty w0 rfl))),
    by decide,
    (failure_fields_follow_last_write w0 envOk smsHi updFailed).2.1 (by decide),
    by decide,
    (failure_fields_follow_last_write wSent envOk smsHi updFailed).2.2 (by decide)⟩

/-- C17, counterexample: the update argument has an empty status, and the
status written is `Success`, which is none of `Pending`, `Sent`, `Failed`,
`Blocked`. -/
theorem empty_status_written_as_success :
    updEmptyStatus.Status = "" ∧
    (UpdateSMSDetailsInDB envOk updEmptyStatus wPending).1 = none ∧
    (cqlSelect "r-1" (UpdateSMSDetailsInDB envOk updEmptyStatus wPending).2.sms_requests).map
      SMSRequest.Status = some "Success" ∧
    isSpecStatus "Success" = false := by
  decide

/-- C17, amended: `InsertSMSRequest` writes the status `Pending`;
`UpdateSMSDetailsInDB` writes the status of its argument as it is when that is
non-empty and `Success` when it is empty, so the status written is never empty,
and it is one of the four values exactly when the argument's status is. -/
theorem written_status (env : Env) (sms : AddSmsEntryInDb) (smsDetails : SMSRequest)
    (w : World) :
    ((InsertSMSRequest env sms w).1 = none →
      (cqlSelect sms.RequestID (InsertSMSRequest env sms w).2.sms_requests).map
        SMSRequest.Status = some "Pending") ∧
    ((UpdateSMSDetailsInDB env smsDetails w).1 = none →
      (cqlSelect smsDetails.ID (UpdateSMSDetailsInDB env smsDetails w).2.sms_requests).map
        SMSRequest.Status = some (boundStatus smsDetails)) ∧
    boundStatus smsDetails ≠ "" ∧
    (smsDetails.Status ≠ "" → boundStatus smsDetails = smsDetails.Status) ∧
    (smsDetails.Status = "" → boundStatus smsDetails = "Success") ∧
    (isSpecStatus (boundStatus smsDetails) = true ↔ isSpecStatus smsDetails.Status = true) := by
  refine ⟨?_, ?_, ?_, ?_, ?_, ?_⟩
  · unfold InsertSMSRequest
    cases hi : env.faults.insert with
    | some err => simp
    | none =>
      intro _
      have h := cqlSelect_cqlInsert
        { ID := sms.RequestID, PhoneNumber := sms.PhoneNumber, Message := sms.Message,
          Status := "Pending", FailureCode := "", FailureComments := "",
          CreatedAt := env.now w.clockReads, UpdatedAt := env.now (w.clockReads + 1) }
        w.sms_requests
      simp only at h
      simp [h]
  · unfold UpdateSMSDetailsInDB
    cases hu : env.faults.update with
    | some err => simp
    | none => simp [cqlSelect_cqlUpdate_status, boundStatus]
  · unfold boundStatus
    split
    · decide
    · assumption
  · intro h
    simp [boundStatus, h]
  · intro h
    simp [boundStatus, h]
  · unfold boundStatus
    split
    · next h =>
      rw [h]
      decide
    · rfl

/-- C17 as amended, at a concrete input: the insert of `r-1` on the empty world,
and the update with an empty status on `wPending`. -/
theorem written_status_witness :
    (InsertSMSRequest envOk smsHi w0).1 = none ∧
    (cqlSelect smsHi.RequestID (InsertSMSRequest envOk smsHi w0).2.sms_requests).map
      SMSRequest.Status = some "Pending" ∧
    (UpdateSMSDetailsInDB envOk updEmptyStatus wPending).1 = none ∧
    (cqlSelect updEmptyStatus.ID
      (UpdateSMSDetailsInDB envOk updEmptyStatus wPending).2.sms_requests).map
        SMSRequest.Status = some (boundStatus updEmptyStatus) :=
  ⟨by decide, (written_status envOk smsHi updEmptyStatus w0).1 (by decide), by decide,
    (written_status envOk smsHi updEmptyStatus wPending).2.1 (by decide)⟩

/-! ## Reading a request, the timestamps of an insert -/

/-- C18, counterexample: the id `r-9` is absent in one run and the store fails
in the other; the data-access layer returns two different errors, and
`GetSMSService` returns the same error in both runs. -/
theorem not_found_and_store_failure_look_alike :
    (GetSMSDetailsFromDB envOk "r-9" wPending).1 = .error ErrNotFound ∧
    (GetSMSDetailsFromDB envSelectFails "r-9" wPending).1
      = .error "gocql: no hosts available" ∧
    ErrNotFound ≠ "gocql: no hosts available" ∧
    (GetSMSService envOk "r-9" wPending).1
      = .error "failed to retrieve SMS details for request ID r-9" ∧
    (GetSMSService envSelectFails "r-9" wPending).1
      = .error "failed to retrieve SMS details for request ID r-9" :=
  ⟨rfl, rfl, by decide, rfl, rfl⟩

/-- C18, amended: `GetSMSService` returns the stored record when the read
returns it; for every error of the read, an absent id and a store failure
alike, it returns the one error `failed to retrieve SMS details for request ID`
followed by the id, so two failed reads of the same id return the same
error. -/
theorem get_service_one_error (env env2 : Env) (reqID : String) (w w2 : World) :
    (∀ rec, (GetSMSDetailsFromDB env reqID w).1 = .ok rec →
      (GetSMSService env reqID w).1 = .ok rec) ∧
    (∀ e, (GetSMSDetailsFromDB env reqID w).1 = .error e →
      (GetSMSService env reqID w).1
        = .error ("failed to retrieve SMS details for request ID " ++ reqID)) ∧
    (∀ e e2, (GetSMSDetailsFromDB env reqID w).1 = .error e →
      (GetSMSDetailsFromDB env2 reqID w2).1 = .error e2 →
        (GetSMSService env reqID w).1 = (GetSMSService env2 reqID w2).1) := by
  have hok : ∀ (en : Env) (v : World) rec, (GetSMSDetailsFromDB en reqID v).1 = .ok rec →
      (GetSMSService en reqID v).1 = .ok rec := by
    intro en v rec h
    unfold GetSMSService
    generalize GetSMSDetailsFromDB en reqID v = res at h
    obtain ⟨r, v1⟩ := res
    simp only at h
    subst h
    rfl
  have herr : ∀ (en : Env) (v : World) e, (GetSMSDetailsFromDB en reqID v).1 = .error e →
      (GetSMSService en reqID v).1
        = .error ("failed to retrieve SMS details for request ID " ++ reqID) := by
    intro en v e h
    unfold GetSMSService
    generalize GetSMSDetailsFromDB en reqID v = res at h
    obtain ⟨r, v1⟩ := res
    simp only at h
    subst h
    rfl
  exact ⟨hok env w, herr env w, fun e e2 h h2 => (herr env w e h).trans (herr env2 w2 e2 h2).symm⟩

/-- C18 as amended, at a concrete input: a read of the stored `r-1`, and failed
reads of `r-9`, absent in one run and behind a failing store in the other. -/
theorem get_service_one_error_witness :
    (GetSMSDetailsFromDB envOk "r-1" wPending).1 = .ok recPending ∧
    (GetSMSService envOk "r-1" wPending).1 = .ok recPending ∧
    (GetSMSDetailsFromDB envOk "r-9" wPending).1 = .error ErrNotFound ∧
    (GetSMSDetailsFromDB envSelectFails "r-9" wPending).1
      = .error "gocql: no hosts available" ∧
    (GetSMSService envOk "r-9" wPending).1 = (GetSMSService envSelectFails "r-9" wPending).1 :=
  ⟨rfl, (get_service_one_error envOk envOk "r-1" wPending wPending).1 recPending rfl, rfl, rfl,
    (get_service_one_error envOk envSelectFails "r-9" wPending wPending).2.2 _ _ rfl rfl⟩

/-- C19, counterexample: the clock reads 100 and then 101, and the record
created by `InsertSMSRequest` has `created_at` 100 and `updated_at` 101. -/
theorem created_and_updated_differ :
    (InsertSMSRequest envOk smsHi w0).1 = none ∧
    (cqlSelect "r-1" (InsertSMSRequest envOk smsHi w0).2.sms_requests).map
      SMSRequest.CreatedAt = some 100 ∧
    (cqlSelect "r-1" (InsertSMSRequest envOk smsHi w0).2.sms_requests).map
      SMSRequest.UpdatedAt = some 101 := by
  decide

/-- C19, amended: the record created by `InsertSMSRequest` has as `created_at`
the reading of the clock taken first and as `updated_at` the reading taken
next; the two are equal exactly when the clock gives the same reading twice. -/
theorem insert_reads_clock_twice (env : Env) (sms : AddSmsEntryInDb) (w : World)
    (hok : (InsertSMSRequest env sms w).1 = none) :
    ∃ row : SMSRequest,
      cqlSelect sms.RequestID (InsertSMSRequest env sms w).2.sms_requests = some row ∧
      row.CreatedAt = env.now w.clockReads ∧
      row.UpdatedAt = env.now (w.clockReads + 1) ∧
      (row.CreatedAt = row.UpdatedAt ↔ env.now w.clockReads = env.now (w.clockReads + 1)) := by
  unfold InsertSMSRequest at hok ⊢
  cases hi : env.faults.insert with
  | some err => simp [hi] at hok
  | none =>
    have h := cqlSelect_cqlInsert
      { ID := sms.RequestID, PhoneNumber := sms.PhoneNumber, Message := sms.Message,
        Status := "Pending", FailureCode := "", FailureComments := "",
        CreatedAt := env.now w.clockReads, UpdatedAt := env.now (w.clockReads + 1) }
      w.sms_requests
    simp only at h
    exact ⟨_, h, rfl, rfl, Iff.rfl⟩

/-- C19 as amended, at a concrete input: the insert of `r-1` on the empty world
with a clock that does not move. -/
theorem insert_reads_clock_twice_witness :
    (InsertSMSRequest { envOk with now := frozen } smsHi w0).1 = none ∧
    ∃ row : SMSRequest,
      cqlSelect smsHi.RequestID
        (InsertSMSRequest { envOk with now := frozen } smsHi w0).2.sms_requests = some row ∧
      row.CreatedAt = frozen w0.clockReads ∧
      row.UpdatedAt = frozen (w0.clockReads + 1) ∧
      (row.CreatedAt = row.UpdatedAt ↔ frozen w0.clockReads = frozen (w0.clockReads + 1)) :=
  ⟨rfl, insert_reads_clock_twice { envOk with now := frozen } smsHi w0 rfl⟩

/-! ## The authorization middleware -/

theorem stringsSplit_ne_nil (sep : Char) (cs : List Char) : stringsSplit sep cs ≠ [] := by
  cases cs with
  | nil => simp [stringsSplit]
  | cons c cs =>
    unfold stringsSplit
    split
    · simp
    · split <;> simp

theorem stringsSplit_one (sep : Char) :
    ∀ (cs p : List Char), stringsSplit sep cs = [p] → cs = p := by
  intro cs
  induction cs with
  | nil =>
    intro p h
    simpa [stringsSplit] using h
  | cons c cs ih =>
    intro p h
    unfold stringsSplit at h
    split at h
    · simp only [List.cons.injEq] at h
      exact absurd h.2 (stringsSplit_ne_nil sep cs)
    · split at h
      · next hnil => exact absurd hnil (stringsSplit_ne_nil sep cs)
      · next q qs hq =>
        simp only [List.cons.injEq] at h
        obtain ⟨h1, h2⟩ := h
        subst h2
        rw [← h1, ih q hq]

theorem stringsSplit_two (sep : Char) :
    ∀ (cs p0 p1 : List Char), stringsSplit sep cs = [p0, p1] → cs = p0 ++ sep :: p1 := by
  intro cs
  induction cs with
  | nil =>
    intro p0 p1 h
    simp [stringsSplit] at h
  | cons c cs ih =>
    intro p0 p1 h
    unfold stringsSplit at h
    split at h
    · next hc =>
      simp only [List.cons.injEq] at h
      obtain ⟨h1, h2⟩ := h
      rw [← h1, hc, stringsSplit_one sep cs p1 h2]
      rfl
    · split at h
      · next hnil => exact absurd hnil (stringsSplit_ne_nil sep cs)
      · next q qs hq =>
        simp only [List.cons.injEq] at h
        obtain ⟨h1, h2⟩ := h
        subst h2
        rw [← h1, ih q p1 hq]
        rfl

/-- C20: `AuthCheck` calls `Next` without aborting if and only if the
`Authorization` header is exactly `Bearer password123`; for every other value it
answers 401 and aborts, the empty header included. -/
theorem auth_passes_exact_token_only (token : String) :
    (AuthCheck token = Handled.next ↔ token = "Bearer password123") ∧
    (AuthCheck token = Handled.next ∨
      ∃ body, AuthCheck token = Handled.abort { code := 401, body := body }) ∧
    AuthCheck "" = Handled.abort
      { code := 401, body := [("error", .str "Authorization header is required")] } := by
  refine ⟨⟨?_, ?_⟩, ?_, by decide⟩
  · intro h
    unfold AuthCheck at h
    dsimp only at h
    split_ifs at h with h1 h2 h3
    push_neg at h2 h3
    obtain ⟨hlen, h0⟩ := h2
    have hparts : stringsSplit ' ' token.toList = ["Bearer".toList, "password123".toList] := by
      generalize stringsSplit ' ' token.toList = parts at hlen h0 h3
      match parts, hlen, h0, h3 with
      | [a, b], _, h0, h3 =>
        simp only [List.getElem?_cons_zero, List.getElem?_cons_succ, Option.some.injEq] at h0 h3
        rw [h0, h3]
    have hcs := stringsSplit_two ' ' token.toList _ _ hparts
    have : token = String.mk token.toList := rfl
    rw [this, hcs]
    rfl
  · intro h
    subst h
    decide
  · unfold AuthCheck
    dsimp only
    split_ifs
    · exact Or.inr ⟨_, rfl⟩
    · exact Or.inr ⟨_, rfl⟩
    · exact Or.inr ⟨_, rfl⟩
    · exact Or.inl rfl

/-! ## The trace id -/

/-- The value `TraceMiddleware` stores is found under the key of package
`middlewares`, and `GetTraceID`, which asks for the key of package `utils`,
returns what it returned for the context of the incoming request. -/
theorem GetTraceID_TraceMiddleware (env : Env) (ctx : Context) :
    Context.Value (TraceMiddleware env ctx).ctx middlewares.traceIDKey
      = some (ContextValue.str env.uuid) ∧
    GetTraceID (TraceMiddleware env ctx).ctx = GetTraceID ctx := by
  have hne : middlewares.traceIDKey ≠ utils.traceIDKey := by decide
  simp [TraceMiddleware, WithValue, Context.Value, GetTraceID, hne]

/-- C21, at the failing input: `TraceMiddleware` draws the trace id `t-1` on a
request whose context holds no value.  The id is set as `X-Trace-Id` and stored
under the key of package `middlewares`; `GetTraceID` returns the empty string,
`LogWithContext` tags with an empty `trace_id`, and `RequestLogger` and
`DatabaseLogger` add no `trace_id` at all. -/
theorem trace_id_not_found_by_logger :
    (TraceMiddleware envTrace []).header = ("X-Trace-Id", "t-1") ∧
    Context.Value (TraceMiddleware envTrace []).ctx middlewares.traceIDKey
      = some (ContextValue.str "t-1") ∧
    GetTraceID (TraceMiddleware envTrace []).ctx = "" ∧
    LogWithContext (TraceMiddleware envTrace []).ctx = [("trace_id", "")] ∧
    RequestLogger (TraceMiddleware envTrace []).ctx "service" "send_sms"
      = [("component", "service"), ("operation", "send_sms")] ∧
    DatabaseLogger (TraceMiddleware envTrace []).ctx "insert" "sms_requests" "r-1"
      = [("component", "database"), ("operation", "insert"), ("table", "sms_requests"),
         ("request_id", "r-1")] := by
  decide

/-! ## The dispatch worker: blacklist error, write-back -/

/-- C22: when the record is read and `CheckNumberInBlacklistedSet` returns an
error, `HandleKafkaMessages` returns nil after the select and the check alone:
`SendMessage` is not called, nothing is written to the store, the table is as
before. -/
theorem blacklist_error_fails_closed (env : Env) (requestId : String) (w : World)
    (rec : SMSRequest) (e : GoError)
    (hread : (GetSMSDetailsFromDB env requestId w).1 = .ok rec)
    (hcheck : (CheckNumberInBlacklistedSet env rec.PhoneNumber
      (GetSMSDetailsFromDB env requestId w).2).1 = .error e) :
    (HandleKafkaMessages env requestId w).1 = none ∧
    callsDuring w (HandleKafkaMessages env requestId w).2
      = [Call.scyllaSelect requestId, Call.redisSIsMember rec.PhoneNumber] ∧
    (∀ c ∈ callsDuring w (HandleKafkaMessages env requestId w).2,
      c.isSend = false ∧ c.isStoreWrite = false) ∧
    (HandleKafkaMessages env requestId w).2.sms_requests = w.sms_requests := by
  have hsel : env.faults.select = none := by
    unfold GetSMSDetailsFromDB at hread
    cases h : env.faults.select <;> simp_all
  have hrec : cqlSelect requestId w.sms_requests = some rec := by
    unfold GetSMSDetailsFromDB at hread
    simp only [hsel] at hread
    cases h : cqlSelect requestId w.sms_requests with
    | none => simp [h] at hread
    | some r => simpa [h] using hread
  obtain ⟨err, hchk⟩ : ∃ err, env.faults.sismember = some err := by
    unfold CheckNumberInBlacklistedSet at hcheck
    cases h : env.faults.sismember with
    | none => simp [h] at hcheck
    | some err => exact ⟨err, rfl⟩
  have h := HandleKafkaMessages_check_error env requestId w rec err hsel hrec hchk
  have hc : callsDuring w (HandleKafkaMessages env requestId w).2
      = [Call.scyllaSelect requestId, Call.redisSIsMember rec.PhoneNumber] :=
    callsDuring_append _ _ _ (by simp [h])
  refine ⟨by simp [h], hc, ?_, by simp [h]⟩
  rw [hc]
  simp [Call.isSend, Call.isStoreWrite]

/-- C22 at a concrete input: the `Pending` request `r-1` with a blacklist check
that fails. -/
theorem blacklist_error_fails_closed_witness :
    (GetSMSDetailsFromDB envCheckFails "r-1" wPending).1 = .ok recPending ∧
    (CheckNumberInBlacklistedSet envCheckFails recPending.PhoneNumber
      (GetSMSDetailsFromDB envCheckFails "r-1" wPending).2).1
        = .error "failed to check blacklist status" ∧
    (HandleKafkaMessages envCheckFails "r-1" wPending).1 = none ∧
    callsDuring wPending (HandleKafkaMessages envCheckFails "r-1" wPending).2
      = [Call.scyllaSelect "r-1", Call.redisSIsMember recPending.PhoneNumber] ∧
    (∀ c ∈ callsDuring wPending (HandleKafkaMessages envCheckFails "r-1" wPending).2,
      c.isSend = false ∧ c.isStoreWrite = false) ∧
    (HandleKafkaMessages envCheckFails "r-1" wPending).2.sms_requests
      = wPending.sms_requests :=
  ⟨rfl, rfl, blacklist_error_fails_closed envCheckFails "r-1" wPending recPending _ rfl rfl⟩

/-- C23: on the path of a number that is not blacklisted, with the read, the
check and the update all succeeding, `HandleKafkaMessages` returns nil and the
record stored afterwards is the record read with `updated_at` refreshed, the
failure code and the failure comment each kept if non-empty and `null`
otherwise, and the status kept if non-empty and `Success` otherwise. -/
theorem handler_writes_back_record (env : Env) (requestId : String) (w : World)
    (rec : SMSRequest) (hrec : cqlSelect requestId w.sms_requests = some rec)
    (hsel : env.faults.select = none) (hchk : env.faults.sismember = none)
    (hupd : env.faults.update = none)
    (hmem : rec.PhoneNumber ∉ w.blacklisted_numbers_set) :
    (HandleKafkaMessages env requestId w).1 = none ∧
    (∃ row : SMSRequest,
      cqlSelect requestId (HandleKafkaMessages env requestId w).2.sms_requests = some row ∧
      row.ID = rec.ID ∧ row.PhoneNumber = rec.PhoneNumber ∧ row.Message = rec.Message ∧
      row.CreatedAt = rec.CreatedAt ∧ row.UpdatedAt = env.now w.clockReads ∧
      (rec.Status ≠ "" → row.Status = rec.Status) ∧
      (rec.Status = "" → row.Status = "Success") ∧
      row.FailureCode = (if rec.FailureCode = "" then "null" else rec.FailureCode) ∧
      row.FailureComments
        = (if rec.FailureComments = "" then "null" else rec.FailureComments)) := by
  have hid : rec.ID = requestId := cqlSelect_ID requestId rec _ hrec
  rw [HandleKafkaMessages_send env requestId w rec hsel hrec hchk hmem]
  simp only [UpdateSMSDetailsInDB, hupd, hid, true_and]
  refine ⟨_, cqlSelect_cqlUpdate _ _ _ _ _ rec _ hrec, hid, rfl, rfl, rfl, rfl, ?_, ?_, rfl, rfl⟩
  · intro h
    simp [h]
  · intro h
    simp [h]

/-- C23 at a concrete input: the `Pending` request `r-1`, whose failure code and
comment are empty. -/
theorem handler_writes_back_record_witness :
    cqlSelect "r-1" wPending.sms_requests = some recPending ∧
    recPending.PhoneNumber ∉ wPending.blacklisted_numbers_set ∧
    (HandleKafkaMessages envOk "r-1" wPending).1 = none ∧
    cqlSelect "r-1" (HandleKafkaMessages envOk "r-1" wPending).2.sms_requests
      = some { recPending with FailureCode := "null", FailureComments := "null",
                               UpdatedAt := 102 } ∧
    (∃ row : SMSRequest,
      cqlSelect "r-1" (HandleKafkaMessages envOk "r-1" wPending).2.sms_requests = some row ∧
      row.ID = recPending.ID ∧ row.PhoneNumber = recPending.PhoneNumber ∧
      row.Message = recPending.Message ∧ row.CreatedAt = recPending.CreatedAt ∧
      row.UpdatedAt = envOk.now wPending.clockReads ∧
      (recPending.Status ≠ "" → row.Status = recPending.Status) ∧
      (recPending.Status = "" → row.Status = "Success") ∧
      row.FailureCode = (if recPending.FailureCode = "" then "null"
        else recPending.FailureCode) ∧
      row.FailureComments = (if recPending.FailureComments = "" then "null"
        else recPending.FailureComments)) :=
  ⟨by decide, by decide, by decide, by decide,
    (handler_writes_back_record envOk "r-1" wPending recPending (by decide) (by decide)
      (by decide) (by decide) (by decide)).2⟩

end NotificationService
